import Mathlib

/-!
Verification of the CV matching backend (cv-match-pro).

Shallow embedding of `src/server/src/handlers/run_matching_algorithm.ts`
(the implemented handler, not the placeholder stub that precedes it in the
file) and of the `updateSearchProject` handler.

Modelling conventions:
* JavaScript numbers are modelled by `JSNum`: an exact rational together
  with the three IEEE special values `NaN`, `+Infinity`, `-Infinity`.
  Rounding of doubles is idealised to exact rational arithmetic; the
  special-value propagation rules (`0/0 = NaN`, `x/0 = ±Infinity` for
  `x ≠ 0`, `Math.min`/`Math.max` propagating `NaN`, comparisons with `NaN`
  being false) follow ECMAScript.
* Inputs read from JSON (criteria, parsed CV data) are finite numbers,
  so they are plain rationals (`ℚ`); `null` is `Option.none`.
* Rational arithmetic is spelled with the `q...` wrappers below.  They are
  provably equal to the Mathlib operations (`qadd_eq` etc.) but defined
  through `mkRat`, which the kernel can evaluate, so that concrete runs of
  the algorithm can be settled by `decide`.
* `String.prototype.toLowerCase().trim()` and `split(/\s+/)` are modelled
  on the character list of the string: `\s` is `Char.isWhitespace`, and
  tokenisation yields the maximal whitespace-free runs.  The one place the
  JS version differs — `"".split(/\s+/)` is `[""]`, ours is `[]` — cannot
  change any similarity value: an empty token in one word list can only
  match an empty token in the other, which forces both normalised strings
  to be empty and therefore equal, a case caught by the earlier
  exact-equality branch.
* The drizzle/postgres store is a pair of lists (projects, project CVs);
  a `select ... where` is a filter in list order, an `update ... where` is
  a map, and a thrown `Error` is `Except.error` carrying the message.
  The `numeric` score column stores a decimal string in the source; the
  round trip `toString` / `parseFloat` is the identity on the stored
  value, so the column is modelled as `Option JSNum` directly.
-/

/-! ## Kernel-evaluable rational arithmetic -/

/-- Addition on `ℚ` through `mkRat` (kernel-evaluable). -/
def qadd (a b : ℚ) : ℚ := mkRat (a.num * b.den + b.num * a.den) (a.den * b.den)

/-- Subtraction on `ℚ` through `mkRat` (kernel-evaluable). -/
def qsub (a b : ℚ) : ℚ := mkRat (a.num * b.den - b.num * a.den) (a.den * b.den)

/-- Negation on `ℚ` through `mkRat` (kernel-evaluable). -/
def qneg (a : ℚ) : ℚ := mkRat (-a.num) a.den

/-- Multiplication on `ℚ` through `mkRat` (kernel-evaluable). -/
def qmul (a b : ℚ) : ℚ := mkRat (a.num * b.num) (a.den * b.den)

/-- Division on `ℚ` through `Rat.divInt` (kernel-evaluable; total, with
`qdivq a 0 = 0` exactly like Mathlib's `/`). -/
def qdivq (a b : ℚ) : ℚ := Rat.divInt (a.num * b.den) (a.den * b.num)

/-- The `ℕ → ℚ` through `mkRat` (kernel-evaluable). -/
def qofNat (n : ℕ) : ℚ := mkRat (Int.ofNat n) 1

/-- Minimum on `ℚ` by comparison (kernel-evaluable). -/
def qmin (a b : ℚ) : ℚ := if a ≤ b then a else b

/-- Maximum on `ℚ` by comparison (kernel-evaluable). -/
def qmax (a b : ℚ) : ℚ := if a ≤ b then b else a

/-- Floor of `q + 1/2` computed with integer floor division (kernel-evaluable). -/
def qroundHalfUp (a : ℚ) : ℤ := Int.fdiv (2 * a.num + (a.den : ℤ)) ((2 * a.den : ℕ) : ℤ)

theorem qadd_eq (a b : ℚ) : qadd a b = a + b := by
  rw [qadd, Rat.add_def, Rat.normalize_eq_mkRat]

theorem qsub_eq (a b : ℚ) : qsub a b = a - b := (Rat.sub_def' a b).symm

theorem qneg_eq (a : ℚ) : qneg a = -a := by
  rw [qneg, ← Rat.neg_mkRat, Rat.mkRat_self]

theorem qmul_eq (a b : ℚ) : qmul a b = a * b := by
  rw [qmul, Rat.mul_def, Rat.normalize_eq_mkRat]

theorem qdivq_eq (a b : ℚ) : qdivq a b = a / b := (Rat.div_def' a b).symm

theorem qofNat_eq (n : ℕ) : qofNat n = (n : ℚ) := by
  rw [qofNat]
  push_cast [Rat.mkRat_one]
  rfl

theorem qmin_eq (a b : ℚ) : qmin a b = min a b := (min_def a b).symm

theorem qmax_eq (a b : ℚ) : qmax a b = max a b := (max_def a b).symm

theorem qroundHalfUp_eq (a : ℚ) : qroundHalfUp a = ⌊a + 1/2⌋ := by
  have hden : (0 : ℤ) < ((2 * a.den : ℕ) : ℤ) := by
    have := a.pos
    positivity
  have hq : ((a.den : ℚ)) ≠ 0 := by
    exact_mod_cast a.den_ne_zero
  have hnum : (a.num : ℚ) = a * (a.den : ℚ) := (div_eq_iff hq).mp (Rat.num_div_den a)
  have key : a + 1/2 = ((2 * a.num + (a.den : ℤ) : ℤ) : ℚ) / ((2 * a.den : ℕ) : ℚ) := by
    rw [eq_div_iff (by exact_mod_cast hden.ne')]
    push_cast
    rw [hnum]
    ring
  rw [qroundHalfUp, Int.fdiv_eq_ediv _ hden.le, key,
    Rat.floor_intCast_div_natCast (2 * a.num + (a.den : ℤ)) (2 * a.den)]

/-! ## JavaScript numbers -/

/-- JavaScript number: NaN, the two infinities, or a finite value
(idealised as an exact rational). -/
inductive JSNum where
  | nan : JSNum
  | inf : JSNum
  | ninf : JSNum
  | fin : ℚ → JSNum
deriving DecidableEq, Repr

namespace JSNum

/-- JS unary negation on numbers. -/
def neg : JSNum → JSNum
  | nan => nan
  | inf => ninf
  | ninf => inf
  | fin q => fin (qneg q)

/-- JS addition. -/
def add : JSNum → JSNum → JSNum
  | nan, _ => nan
  | _, nan => nan
  | inf, ninf => nan
  | ninf, inf => nan
  | inf, _ => inf
  | _, inf => inf
  | ninf, _ => ninf
  | _, ninf => ninf
  | fin a, fin b => fin (qadd a b)

/-- JS subtraction. -/
def sub (a b : JSNum) : JSNum := add a (neg b)

/-- JS multiplication (`Infinity * 0 = NaN`). -/
def mul : JSNum → JSNum → JSNum
  | nan, _ => nan
  | _, nan => nan
  | inf, inf => inf
  | inf, ninf => ninf
  | ninf, inf => ninf
  | ninf, ninf => inf
  | inf, fin b => if 0 < b then inf else if b < 0 then ninf else nan
  | fin a, inf => if 0 < a then inf else if a < 0 then ninf else nan
  | ninf, fin b => if 0 < b then ninf else if b < 0 then inf else nan
  | fin a, ninf => if 0 < a then ninf else if a < 0 then inf else nan
  | fin a, fin b => fin (qmul a b)

/-- JS division (`0/0 = NaN`, `a/0 = ±Infinity` for finite `a ≠ 0`,
finite over infinite is `0`). -/
def div : JSNum → JSNum → JSNum
  | nan, _ => nan
  | _, nan => nan
  | inf, inf => nan
  | inf, ninf => nan
  | ninf, inf => nan
  | ninf, ninf => nan
  | inf, fin b => if b < 0 then ninf else inf
  | ninf, fin b => if b < 0 then inf else ninf
  | fin _, inf => fin 0
  | fin _, ninf => fin 0
  | fin a, fin b =>
    if b = 0 then (if 0 < a then inf else if a < 0 then ninf else nan)
    else fin (qdivq a b)

/-- The `Math.min`: NaN-propagating minimum. -/
def min : JSNum → JSNum → JSNum
  | nan, _ => nan
  | _, nan => nan
  | ninf, _ => ninf
  | _, ninf => ninf
  | inf, b => b
  | a, inf => a
  | fin a, fin b => fin (qmin a b)

/-- The `Math.max`: NaN-propagating maximum. -/
def max : JSNum → JSNum → JSNum
  | nan, _ => nan
  | _, nan => nan
  | inf, _ => inf
  | _, inf => inf
  | ninf, b => b
  | a, ninf => a
  | fin a, fin b => fin (qmax a b)

/-- JS `<=` comparison: false whenever either side is NaN. -/
def le : JSNum → JSNum → Bool
  | nan, _ => false
  | _, nan => false
  | ninf, _ => true
  | _, ninf => false
  | _, inf => true
  | inf, _ => false
  | fin a, fin b => decide (a ≤ b)

/-- JS `>=` comparison. -/
def ge (a b : JSNum) : Bool := le b a

/-- The `Math.round`: round half toward positive infinity. -/
def round : JSNum → JSNum
  | nan => nan
  | inf => inf
  | ninf => ninf
  | fin q => fin (Rat.divInt (qroundHalfUp q) 1)

/-- The `Math.round(x * 100) / 100` — the two-decimal rounding the handler
applies to every score it returns or persists. -/
def round2 (x : JSNum) : JSNum := div (round (mul x (fin 100))) (fin 100)

end JSNum

/-- Two-decimal rounding on a plain rational:
`Math.round(q * 100) / 100`. -/
def round2q (q : ℚ) : ℚ := qdivq (Rat.divInt (qroundHalfUp (qmul q 100)) 1) 100

/-! ## Similarity primitive

`calculateSemanticSimilarity` from `run_matching_algorithm.ts`. -/

/-- Leading and trailing whitespace removal on a character list
(`String.prototype.trim`). -/
def trimChars (l : List Char) : List Char :=
  ((l.dropWhile Char.isWhitespace).reverse.dropWhile Char.isWhitespace).reverse

/-- The `str.toLowerCase().trim()` — the `normalize` helper of the handler,
on the character list of the string. -/
def normChars (s : String) : List Char :=
  trimChars (s.data.map Char.toLower)

/-- Maximal whitespace-free runs of a character list, accumulator form
(`split(/\s+/)` on a trimmed string, see the header note). -/
def splitRunsAux : List Char → List Char → List (List Char)
  | [], acc => if acc = [] then [] else [acc.reverse]
  | c :: cs, acc =>
    if c.isWhitespace then
      if acc = [] then splitRunsAux cs [] else acc.reverse :: splitRunsAux cs []
    else splitRunsAux cs (c :: acc)

/-- Whitespace tokenisation of a (normalised) character list. -/
def tokensOf (l : List Char) : List (List Char) := splitRunsAux l []

/-- The `calculateSemanticSimilarity(text1, text2)`:
empty input → 0; normalised equality → 1; otherwise the number of tokens
of `text1` that occur among `text2`'s tokens (with multiplicity) divided
by the size of the deduplicated union of both token lists. -/
def calculateSemanticSimilarity (text1 text2 : String) : ℚ :=
  if text1 = "" ∨ text2 = "" then 0
  else
    let n1 := normChars text1
    let n2 := normChars text2
    let words1 := tokensOf n1
    let words2 := tokensOf n2
    if n1 = n2 then 1
    else
      let commonWords := words1.filter (fun w => words2.contains w)
      let totalWords := ((words1 ++ words2).dedup).length
      qdivq (qofNat commonWords.length) (qofNat (Max.max totalWords 1))

example : calculateSemanticSimilarity "x x" "x" = 2 := by decide
example : calculateSemanticSimilarity "ab cd" "ab" = mkRat 1 2 := by decide
example : calculateSemanticSimilarity "" "x" = 0 := by decide
example : calculateSemanticSimilarity "  Ab " "aB" = 1 := by decide
example : JSNum.round2 (JSNum.fin (mkRat 1234567 10000)) = JSNum.fin (mkRat 12346 100) := by decide
example : JSNum.div (JSNum.fin 0) (JSNum.fin 0) = JSNum.nan := by decide

/-! ## Dimension scorers -/

/-- The `calculateExperienceScore(actualYears, requiredYears)` — `null` on
either side is the neutral score 50; otherwise bonus-above / penalty-below
the requirement, with JS division semantics when `requiredYears = 0`. -/
def calculateExperienceScore (actualYears requiredYears : Option ℚ) : JSNum :=
  match requiredYears, actualYears with
  | some r, some a =>
    if r ≤ a then
      JSNum.min (.fin 100)
        (JSNum.add (.fin 80)
          (JSNum.min (JSNum.mul (JSNum.div (.fin (qsub a r)) (.fin r)) (.fin 20)) (.fin 20)))
    else
      JSNum.max (.fin 0) (JSNum.mul (JSNum.div (.fin a) (.fin r)) (.fin 80))
  | _, _ => .fin 50

/-- Result of `calculateRoleScore`. -/
structure RoleMatch where
  score : ℚ
  «matches» : List String
deriving DecidableEq, Repr

/-- The `for (const role of cvRoles)` loop of `calculateRoleScore`:
keep any role with similarity above 0.3, track the best similarity×100. -/
def roleLoop (t : String) : List String → ℚ → List String → ℚ × List String
  | [], best, ms => (best, ms)
  | role :: rest, best, ms =>
    let sim := calculateSemanticSimilarity t role
    if mkRat 3 10 < sim then roleLoop t rest (qmax best (qmul sim 100)) (ms ++ [role])
    else roleLoop t rest best ms

/-- The `calculateRoleScore(targetRole, cvRoles)`. -/
def calculateRoleScore (targetRole : Option String) (cvRoles : List String) : RoleMatch :=
  match targetRole with
  | none => ⟨0, []⟩
  | some t =>
    if t = "" ∨ cvRoles.isEmpty then ⟨0, []⟩
    else
      match roleLoop t cvRoles 0 [] with
      | (b, ms) => ⟨b, ms⟩

/-- Result of `calculateSkillsScore`. -/
structure SkillsMatch where
  score : ℚ
  exact_matches : List String
  semantic_matches : List String
deriving DecidableEq, Repr

/-- Inner loop of `calculateSkillsScore` over `cvSkills` for one required
skill (weight 2): an exact similarity 1 sets the award to 2 and breaks;
similarity above 0.7 records a semantic match and keeps the best award. -/
def requiredScan (rs : String) :
    List String → ℚ → List String → List String → ℚ × List String × List String
  | [], best, ex, sm => (best, ex, sm)
  | cv :: rest, best, ex, sm =>
    let sim := calculateSemanticSimilarity rs cv
    if sim = 1 then (2, ex ++ [rs], sm)
    else if mkRat 7 10 < sim then
      requiredScan rs rest (qmax best (qmul sim 2)) ex (sm ++ [rs ++ " → " ++ cv])
    else requiredScan rs rest best ex sm

/-- Outer loop of `calculateSkillsScore` over the required skills,
threading total score, maximum possible score and the evidence lists. -/
def requiredLoop (cvSkills : List String) :
    List String → ℚ → ℚ → List String → List String → ℚ × ℚ × List String × List String
  | [], total, maxP, ex, sm => (total, maxP, ex, sm)
  | rs :: rest, total, maxP, ex, sm =>
    match requiredScan rs cvSkills 0 ex sm with
    | (best, ex2, sm2) => requiredLoop cvSkills rest (qadd total best) (qadd maxP 2) ex2 sm2

/-- Inner loop of `calculateSkillsScore` for one preferred skill
(weight 1); unlike the required loop it deduplicates evidence entries. -/
def preferredScan (ps : String) :
    List String → ℚ → List String → List String → ℚ × List String × List String
  | [], best, ex, sm => (best, ex, sm)
  | cv :: rest, best, ex, sm =>
    let sim := calculateSemanticSimilarity ps cv
    if sim = 1 then (1, if ex.contains ps then ex else ex ++ [ps], sm)
    else if mkRat 7 10 < sim then
      preferredScan ps rest (qmax best sim) ex
        (if sm.contains (ps ++ " → " ++ cv) then sm else sm ++ [ps ++ " → " ++ cv])
    else preferredScan ps rest best ex sm

/-- Outer loop of `calculateSkillsScore` over the preferred skills. -/
def preferredLoop (cvSkills : List String) :
    List String → ℚ → ℚ → List String → List String → ℚ × ℚ × List String × List String
  | [], total, maxP, ex, sm => (total, maxP, ex, sm)
  | ps :: rest, total, maxP, ex, sm =>
    match preferredScan ps cvSkills 0 ex sm with
    | (best, ex2, sm2) => preferredLoop cvSkills rest (qadd total best) (qadd maxP 1) ex2 sm2

/-- The `calculateSkillsScore(requiredSkills, preferredSkills, cvSkills)`. -/
def calculateSkillsScore (requiredSkills preferredSkills cvSkills : List String) : SkillsMatch :=
  if cvSkills.isEmpty then ⟨0, [], []⟩
  else
    match requiredLoop cvSkills requiredSkills 0 0 [] [] with
    | (t1, m1, ex1, sm1) =>
      match preferredLoop cvSkills preferredSkills t1 m1 ex1 sm1 with
      | (t2, m2, ex2, sm2) =>
        ⟨if 0 < m2 then qmul (qdivq t2 m2) 100 else 0, ex2, sm2⟩

/-- Result of `calculateIndustryScore`. -/
structure IndustryMatch where
  score : ℚ
  «matches» : List String
deriving DecidableEq, Repr

/-- Inner loop of `calculateIndustryScore`: the single best-matching
candidate industry for one target industry. -/
def industryBest (t : String) : List String → ℚ → String → ℚ × String
  | [], best, bi => (best, bi)
  | ci :: rest, best, bi =>
    let sim := calculateSemanticSimilarity t ci
    if best < sim then industryBest t rest sim ci else industryBest t rest best bi

/-- Outer loop of `calculateIndustryScore` over the target industries:
count a match when the best similarity exceeds 0.6 and accumulate it. -/
def industryLoop (cvIndustries : List String) : List String → ℚ → List String → ℚ × List String
  | [], total, ms => (total, ms)
  | t :: rest, total, ms =>
    match industryBest t cvIndustries 0 "" with
    | (best, bi) =>
      if mkRat 3 5 < best then industryLoop cvIndustries rest (qadd total best) (ms ++ [bi])
      else industryLoop cvIndustries rest total ms

/-- The `calculateIndustryScore(targetIndustries, cvIndustries)`. -/
def calculateIndustryScore (targetIndustries cvIndustries : List String) : IndustryMatch :=
  if targetIndustries.isEmpty ∨ cvIndustries.isEmpty then ⟨0, []⟩
  else
    match industryLoop cvIndustries targetIndustries 0 [] with
    | (total, ms) =>
      ⟨if 0 < targetIndustries.length then
          qmul (qdivq total (qofNat targetIndustries.length)) 100
        else 0, ms⟩

/-- The `calculateJobStabilityScore(jobChangesPerYear, maxJobChangesPerYear)`:
`null` on either side is the neutral 50; within the allowance 100;
otherwise a linear penalty floored at 0, with JS division semantics when
the allowance is 0. -/
def calculateJobStabilityScore (jobChangesPerYear maxJobChangesPerYear : Option ℚ) : JSNum :=
  match maxJobChangesPerYear, jobChangesPerYear with
  | some mx, some jc =>
    if jc ≤ mx then .fin 100
    else JSNum.max (.fin 0)
      (JSNum.sub (.fin 100) (JSNum.mul (JSNum.div (.fin (qsub jc mx)) (.fin mx)) (.fin 50)))
  | _, _ => .fin 50

example : calculateExperienceScore (some 0) (some 0) = JSNum.nan := by decide
example : calculateExperienceScore (some 1) (some 0) = JSNum.fin 100 := by decide
example : calculateExperienceScore (some 5) (some (-1)) = JSNum.fin (-40) := by decide
example : calculateExperienceScore (some 2) (some 4) = JSNum.fin 40 := by decide
example : calculateExperienceScore (some 5) (some 4) = JSNum.fin 85 := by decide
example : calculateExperienceScore none (some 4) = JSNum.fin 50 := by decide
example : calculateJobStabilityScore (some 2) (some 0) = JSNum.fin 0 := by decide
example : calculateJobStabilityScore (some 0) (some 0) = JSNum.fin 100 := by decide
example : calculateJobStabilityScore (some 3) (some 2) = JSNum.fin 75 := by decide
example : calculateRoleScore (some "x x") ["x"] = ⟨200, ["x"]⟩ := by decide
example : calculateRoleScore none ["x"] = ⟨0, []⟩ := by decide
example : calculateSkillsScore ["js"] [] ["js"] = ⟨100, ["js"], []⟩ := by decide
example : calculateSkillsScore ["js"] ["ts"] ["js"] = ⟨mkRat 200 3, ["js"], []⟩ := by decide
example : calculateIndustryScore ["tech"] ["tech"] = ⟨100, ["tech"]⟩ := by decide
example : calculateIndustryScore [] ["tech"] = ⟨0, []⟩ := by decide

/-! ## Data model

Only the fields the two handlers read or write are carried; columns they
merely pass through unchanged (filename, file path, upload timestamps,
creator id) are omitted from the record types. -/

/-- Project status enum (`project_status`). -/
inductive ProjectStatus where
  | DRAFT
  | ACTIVE
  | COMPLETED
  | ARCHIVED
deriving DecidableEq, Repr

/-- The five scoring weights of `ProjectCriteria` (each validated to
[0,100] by the zod schema). -/
structure Weights where
  years_experience : ℚ
  role_match : ℚ
  skills_match : ℚ
  industry_match : ℚ
  job_stability : ℚ
deriving DecidableEq, Repr

/-- The `ProjectCriteria` (zod `projectCriteriaSchema`). -/
structure ProjectCriteria where
  minimum_years_experience : Option ℚ
  target_role : Option String
  required_skills : List String
  preferred_skills : List String
  target_industries : List String
  max_job_changes_per_year : Option ℚ
  weights : Weights
deriving DecidableEq, Repr

/-- The `ParsedCVData` — the fields the matching algorithm reads
(`contact_info`, `education`, `employment_history` are carried through
unused by the handler and omitted here). -/
structure ParsedCVData where
  total_years_experience : Option ℚ
  job_changes_frequency : Option ℚ
  roles_positions : Option (List String)
  skills : Option (List String)
  dominant_industries : Option (List String)
deriving DecidableEq, Repr

/-- A `project_cvs` row. -/
structure ProjectCV where
  id : ℕ
  project_id : ℕ
  parsed_data : Option ParsedCVData
  score : Option JSNum
  ranking : Option ℤ
  updated_at : ℕ
deriving DecidableEq, Repr

/-- A `search_projects` row. -/
structure SearchProject where
  id : ℕ
  name : String
  description : Option String
  status : ProjectStatus
  criteria : ProjectCriteria
  updated_at : ℕ
deriving DecidableEq, Repr

/-- The store: the two tables the handlers touch, in insertion order. -/
structure DB where
  projects : List SearchProject
  project_cvs : List ProjectCV
deriving DecidableEq, Repr

/-- The CV record embedded in a `CVMatchResult`:
`{...cv, score: parseFloat(cv.score || '0'), ranking: cv.ranking}` —
the stored decimal string is converted to a number, null becoming 0. -/
structure ResponseCV where
  id : ℕ
  project_id : ℕ
  parsed_data : Option ParsedCVData
  score : JSNum
  ranking : Option ℤ
  updated_at : ℕ
deriving DecidableEq, Repr

/-- The spread building the embedded CV record. -/
def toResponseCV (cv : ProjectCV) : ResponseCV :=
  { id := cv.id
    project_id := cv.project_id
    parsed_data := cv.parsed_data
    score := cv.score.getD (.fin 0)
    ranking := cv.ranking
    updated_at := cv.updated_at }

/-- The `highlights.years_experience_match`. -/
structure YearsHighlight where
  actual : Option ℚ
  required : Option ℚ
  score : JSNum
deriving DecidableEq, Repr

/-- The `highlights.role_match`. -/
structure RoleHighlight where
  «matches» : List String
  score : ℚ
deriving DecidableEq, Repr

/-- The `highlights.skills_match`. -/
structure SkillsHighlight where
  exact_matches : List String
  semantic_matches : List String
  score : ℚ
deriving DecidableEq, Repr

/-- The `highlights.industry_match`. -/
structure IndustryHighlight where
  «matches» : List String
  score : ℚ
deriving DecidableEq, Repr

/-- The `highlights.job_stability`. -/
structure StabilityHighlight where
  job_changes_per_year : Option ℚ
  score : JSNum
deriving DecidableEq, Repr

/-- The per-candidate explainability payload. -/
structure Highlights where
  years_experience_match : YearsHighlight
  role_match : RoleHighlight
  skills_match : SkillsHighlight
  industry_match : IndustryHighlight
  job_stability : StabilityHighlight
deriving DecidableEq, Repr

/-- One element of the `results` array. -/
structure CVMatchResult where
  cv : ResponseCV
  score : JSNum
  ranking : ℤ
  highlights : Highlights
deriving DecidableEq, Repr

/-- The `ProjectMatchingResults`. -/
structure ProjectMatchingResults where
  project : SearchProject
  results : List CVMatchResult
  total_candidates : ℕ
  processed_at : ℕ
deriving DecidableEq, Repr

/-! ## Aggregator / orchestrator -/

/-- The weighted final score of one CV (before two-decimal rounding):
`(exp*w1 + role*w2 + skills*w3 + industry*w4 + stability*w5) / 100`
in JS arithmetic. -/
def computeFinalScore (criteria : ProjectCriteria) (pd : ParsedCVData) : JSNum :=
  let experienceScore :=
    calculateExperienceScore pd.total_years_experience criteria.minimum_years_experience
  let roleMatch := calculateRoleScore criteria.target_role (pd.roles_positions.getD [])
  let skillsMatch :=
    calculateSkillsScore criteria.required_skills criteria.preferred_skills (pd.skills.getD [])
  let industryMatch :=
    calculateIndustryScore criteria.target_industries (pd.dominant_industries.getD [])
  let jobStabilityScore :=
    calculateJobStabilityScore pd.job_changes_frequency criteria.max_job_changes_per_year
  let w := criteria.weights
  JSNum.div
    (JSNum.add (JSNum.add (JSNum.add (JSNum.add
      (JSNum.mul experienceScore (.fin w.years_experience))
      (JSNum.mul (.fin roleMatch.score) (.fin w.role_match)))
      (JSNum.mul (.fin skillsMatch.score) (.fin w.skills_match)))
      (JSNum.mul (.fin industryMatch.score) (.fin w.industry_match)))
      (JSNum.mul jobStabilityScore (.fin w.job_stability)))
    (.fin 100)

/-- The loop body of `runMatchingAlgorithm` for one CV with parsed data:
dimension scores, weighted final score, highlights; `ranking` is the
placeholder 0 overwritten after sorting. -/
def computeMatchResult (criteria : ProjectCriteria) (cv : ProjectCV) (pd : ParsedCVData) :
    CVMatchResult :=
  let experienceScore :=
    calculateExperienceScore pd.total_years_experience criteria.minimum_years_experience
  let roleMatch := calculateRoleScore criteria.target_role (pd.roles_positions.getD [])
  let skillsMatch :=
    calculateSkillsScore criteria.required_skills criteria.preferred_skills (pd.skills.getD [])
  let industryMatch :=
    calculateIndustryScore criteria.target_industries (pd.dominant_industries.getD [])
  let jobStabilityScore :=
    calculateJobStabilityScore pd.job_changes_frequency criteria.max_job_changes_per_year
  { cv := toResponseCV cv
    score := JSNum.round2 (computeFinalScore criteria pd)
    ranking := 0
    highlights :=
      { years_experience_match :=
          ⟨pd.total_years_experience, criteria.minimum_years_experience,
            JSNum.round2 experienceScore⟩
        role_match := ⟨roleMatch.«matches», round2q roleMatch.score⟩
        skills_match :=
          ⟨skillsMatch.exact_matches, skillsMatch.semantic_matches, round2q skillsMatch.score⟩
        industry_match := ⟨industryMatch.«matches», round2q industryMatch.score⟩
        job_stability := ⟨pd.job_changes_frequency, JSNum.round2 jobStabilityScore⟩ } }

/-- The comparator relation of `results.sort((a, b) => b.score - a.score)`:
`cmpKeep a b` is true when `a` may stay in front of `b`, i.e. when the
comparator value `b.score - a.score` is not positive.  A NaN comparator
value is mapped to `+0` by the ECMAScript `SortCompare` operation, hence
`true`. -/
def cmpKeep (a b : CVMatchResult) : Bool :=
  match JSNum.sub b.score a.score with
  | .nan => true
  | .inf => false
  | .ninf => true
  | .fin q => decide (q ≤ 0)

/-- Stable insertion of one result into an already-sorted suffix. -/
def insertDesc (a : CVMatchResult) : List CVMatchResult → List CVMatchResult
  | [] => [a]
  | b :: l => if cmpKeep a b then a :: b :: l else b :: insertDesc a l

/-- Stable sort by descending score.  `Array.prototype.sort` is required
to be stable, and every stable sort agrees with stable insertion sort on
a consistent comparator, so this models the source's in-place sort. -/
def sortDesc : List CVMatchResult → List CVMatchResult
  | [] => []
  | a :: l => insertDesc a (sortDesc l)

/-- The `results.forEach((result, index) => result.ranking = index + 1)`,
started at 1. -/
def assignRankings : ℤ → List CVMatchResult → List CVMatchResult
  | _, [] => []
  | i, r :: rs => { r with ranking := i } :: assignRankings (i + 1) rs

/-- One `db.update(projectCvsTable).set({score, ranking, updated_at})
.where(eq(projectCvsTable.id, result.cv.id))` call. -/
def applyResultWrite (now : ℕ) (cvs : List ProjectCV) (r : CVMatchResult) : List ProjectCV :=
  cvs.map (fun cv =>
    if cv.id = r.cv.id then
      { cv with score := some r.score, ranking := some r.ranking, updated_at := now }
    else cv)

/-- The write-back loop over all results. -/
def writeBack (now : ℕ) (results : List CVMatchResult) (cvs : List ProjectCV) : List ProjectCV :=
  results.foldl (applyResultWrite now) cvs

/-- The `runMatchingAlgorithm({project_id})` over the store `db`, with `now`
the timestamp of this run: look up the project (a missing id throws),
score every project CV that has parsed data, sort, rank, write back, and
return the result summary. -/
def runMatchingAlgorithm (db : DB) (now : ℕ) (project_id : ℕ) :
    Except String (DB × ProjectMatchingResults) :=
  match db.projects.find? (fun p => p.id == project_id) with
  | none => .error ("Search project with ID " ++ toString project_id ++ " not found")
  | some project =>
    let projectCvs := db.project_cvs.filter (fun cv => cv.project_id == project_id)
    let rawResults := projectCvs.filterMap
      (fun cv => cv.parsed_data.map (fun pd => computeMatchResult project.criteria cv pd))
    let ranked := assignRankings 1 (sortDesc rawResults)
    .ok ({ db with project_cvs := writeBack now ranked db.project_cvs },
      { project := project
        results := ranked
        total_candidates := ranked.length
        processed_at := now })

/-- The `results` list of a run (empty when the run throws; a thrown run
returns nothing). -/
def runResultsList (db : DB) (now project_id : ℕ) : List CVMatchResult :=
  match runMatchingAlgorithm db now project_id with
  | .ok (_, out) => out.results
  | .error _ => []

/-- The store after a run (unchanged when the run throws before any
write, which is the only way this handler throws). -/
def runPostDB (db : DB) (now project_id : ℕ) : DB :=
  match runMatchingAlgorithm db now project_id with
  | .ok (db2, _) => db2
  | .error _ => db

/-! ## updateSearchProject (`src/unnamed/part_005`) -/

/-- The `UpdateSearchProjectInput`: optional fields; an absent field is not
written.  `description` is itself nullable when present. -/
structure UpdateSearchProjectInput where
  id : ℕ
  name : Option String
  description : Option (Option String)
  status : Option ProjectStatus
  criteria : Option ProjectCriteria
deriving DecidableEq, Repr

/-- The `updateData` object: `updated_at` always, plus every provided
field. -/
def applyProjectUpdate (input : UpdateSearchProjectInput) (now : ℕ) (p : SearchProject) :
    SearchProject :=
  let p1 := { p with updated_at := now }
  let p2 := match input.name with
    | some n => { p1 with name := n }
    | none => p1
  let p3 := match input.description with
    | some d => { p2 with description := d }
    | none => p2
  let p4 := match input.status with
    | some s => { p3 with status := s }
    | none => p3
  match input.criteria with
  | some c => { p4 with criteria := c }
  | none => p4

/-- The per-row effect of the score-reset
`db.update(projectCvsTable).set({score: null, ranking: null, updated_at})
.where(eq(projectCvsTable.project_id, input.id))`. -/
def resetCvScores (now : ℕ) (pid : ℕ) (cv : ProjectCV) : ProjectCV :=
  if cv.project_id = pid then { cv with score := none, ranking := none, updated_at := now }
  else cv

/-- The `updateSearchProject(input)` over the store `db`: a missing project
throws; otherwise the provided fields are written, and if and only if the
update includes `criteria`, every CV of that project has score and
ranking reset to null. -/
def updateSearchProject (db : DB) (now : ℕ) (input : UpdateSearchProjectInput) :
    Except String (DB × SearchProject) :=
  match db.projects.find? (fun p => p.id == input.id) with
  | none => .error "Search project not found"
  | some p0 =>
    let projects2 := db.projects.map
      (fun p => if p.id == input.id then applyProjectUpdate input now p else p)
    let cvs2 :=
      if input.criteria.isSome then db.project_cvs.map (resetCvScores now input.id)
      else db.project_cvs
    .ok ({ projects := projects2, project_cvs := cvs2 }, applyProjectUpdate input now p0)

/-! ## Basic facts about the embedded operations -/

/-- Whether a JS number is finite (not NaN, not ±Infinity). -/
def JSNum.isFin : JSNum → Bool
  | .fin _ => true
  | _ => false

/-- The rational value of a finite JS number (0 on the special values). -/
def JSNum.val : JSNum → ℚ
  | .fin q => q
  | _ => 0

theorem JSNum.add_fin (a b : ℚ) : JSNum.add (.fin a) (.fin b) = .fin (a + b) := by
  simp [JSNum.add, qadd_eq]

theorem JSNum.sub_fin (a b : ℚ) : JSNum.sub (.fin a) (.fin b) = .fin (a - b) := by
  simp [JSNum.sub, JSNum.add, JSNum.neg, qadd_eq, qneg_eq, sub_eq_add_neg]

theorem JSNum.mul_fin (a b : ℚ) : JSNum.mul (.fin a) (.fin b) = .fin (a * b) := by
  simp [JSNum.mul, qmul_eq]

theorem JSNum.div_fin {b : ℚ} (a : ℚ) (hb : b ≠ 0) :
    JSNum.div (.fin a) (.fin b) = .fin (a / b) := by
  simp [JSNum.div, hb, qdivq_eq]

theorem JSNum.min_fin (a b : ℚ) : JSNum.min (.fin a) (.fin b) = .fin (Min.min a b) := by
  simp [JSNum.min, qmin_eq]

theorem JSNum.max_fin (a b : ℚ) : JSNum.max (.fin a) (.fin b) = .fin (Max.max a b) := by
  simp [JSNum.max, qmax_eq]

theorem JSNum.le_fin (a b : ℚ) : JSNum.le (.fin a) (.fin b) = decide (a ≤ b) := rfl

theorem JSNum.round2_fin (q : ℚ) : JSNum.round2 (.fin q) = .fin (round2q q) := by
  have h100 : (100 : ℚ) ≠ 0 := by norm_num
  simp [JSNum.round2, JSNum.round, JSNum.mul_fin, JSNum.div, h100, round2q,
    qmul_eq, qdivq_eq]

theorem round2q_eq (q : ℚ) : round2q q = ((⌊q * 100 + 1/2⌋ : ℤ) : ℚ) / 100 := by
  rw [round2q, qdivq_eq, qroundHalfUp_eq, qmul_eq, Rat.divInt_eq_div]
  norm_num

theorem round2q_nonneg {q : ℚ} (h : 0 ≤ q) : 0 ≤ round2q q := by
  rw [round2q_eq]
  have : (0 : ℤ) ≤ ⌊q * 100 + 1/2⌋ := by
    apply Int.floor_nonneg.mpr
    positivity
  positivity

/-- Fact used below: a similarity value is never negative. -/
theorem sim_nonneg (a b : String) : 0 ≤ calculateSemanticSimilarity a b := by
  rw [calculateSemanticSimilarity]
  split
  · exact le_refl 0
  · simp only
    split
    · norm_num
    · rw [qdivq_eq, qofNat_eq, qofNat_eq]
      positivity

/-- Fact used below: a similarity value is at most the number of tokens of
the first string (so at most `max tokens 1`). -/
theorem sim_le_tokens (a b : String) :
    calculateSemanticSimilarity a b ≤
      ((Max.max (tokensOf (normChars a)).length 1 : ℕ) : ℚ) := by
  have hpos : (0 : ℚ) < ((Max.max (tokensOf (normChars a)).length 1 : ℕ) : ℚ) := by
    have : 1 ≤ Max.max (tokensOf (normChars a)).length 1 := le_max_right _ _
    exact_mod_cast Nat.lt_of_lt_of_le Nat.zero_lt_one this
  rw [calculateSemanticSimilarity]
  split
  · exact hpos.le
  · simp only
    split
    · exact_mod_cast Nat.one_le_iff_ne_zero.mpr (by positivity)
    · rw [qdivq_eq, qofNat_eq, qofNat_eq]
      have h1 : (1 : ℚ) ≤
          ((Max.max ((tokensOf (normChars a) ++ tokensOf (normChars b)).dedup.length) 1 : ℕ) : ℚ) := by
        exact_mod_cast le_max_right _ _
      calc ((List.filter (fun w => (tokensOf (normChars b)).contains w)
              (tokensOf (normChars a))).length : ℚ) /
            ((Max.max ((tokensOf (normChars a) ++ tokensOf (normChars b)).dedup.length) 1 : ℕ) : ℚ)
          ≤ ((List.filter (fun w => (tokensOf (normChars b)).contains w)
              (tokensOf (normChars a))).length : ℚ) := by
            apply div_le_self (by positivity) h1
        _ ≤ ((tokensOf (normChars a)).length : ℚ) := by
            exact_mod_cast List.length_filter_le _ _
        _ ≤ ((Max.max (tokensOf (normChars a)).length 1 : ℕ) : ℚ) := by
            exact_mod_cast le_max_left _ _

/-! ## Demo stores used by concrete evaluations -/

/-- Weights putting everything on experience (each in [0,100], sum 100). -/
def demoWeights : Weights := ⟨100, 0, 0, 0, 0⟩

/-- Criteria requiring a minimum of 0 years of experience. -/
def demoCriteria : ProjectCriteria := ⟨some 0, none, [], [], [], none, demoWeights⟩

/-- A parsed CV with 0 years of total experience. -/
def demoPdZero : ParsedCVData := ⟨some 0, none, none, none, none⟩

/-- A parsed CV with 1 year of total experience. -/
def demoPdOne : ParsedCVData := ⟨some 1, none, none, none, none⟩

/-- The CV row carrying `demoPdZero`. -/
def demoCvZero : ProjectCV := ⟨1, 1, some demoPdZero, none, none, 0⟩

/-- The CV row carrying `demoPdOne`. -/
def demoCvOne : ProjectCV := ⟨2, 1, some demoPdOne, none, none, 0⟩

/-- The project holding `demoCriteria`. -/
def demoProject : SearchProject := ⟨1, "p", none, .ACTIVE, demoCriteria, 0⟩

/-- Store with `demoProject` and its two parsed CVs. -/
def demoDB : DB := ⟨[demoProject], [demoCvZero, demoCvOne]⟩

/-- Weights putting everything on the role match. -/
def demoRoleWeights : Weights := ⟨0, 100, 0, 0, 0⟩

/-- Criteria whose target role is the two-token string "x x". -/
def demoRoleCriteria : ProjectCriteria := ⟨none, some "x x", [], [], [], none, demoRoleWeights⟩

/-- A parsed CV whose single role is "x". -/
def demoRolePd : ParsedCVData := ⟨none, none, some ["x"], none, none⟩

/-- The CV row carrying `demoRolePd`. -/
def demoRoleCv : ProjectCV := ⟨1, 1, some demoRolePd, none, none, 0⟩

/-! ## Claims C1–C5: counterexamples and direct evaluations -/

/-- Claim C1 fails as stated: with target role "x x" against candidate
role "x" the similarity is 2, so the role dimension score is 200 and the
final weighted score (all weight on role) is 200, both outside [0,100];
the experience score is NaN at 0 actual / 0 required, and is negative for
a negative required-years value the schema admits. -/
theorem claim1_counterexample :
    (calculateRoleScore (some "x x") ["x"]).score = 200 ∧
    ¬((calculateRoleScore (some "x x") ["x"]).score ≤ 100) ∧
    (computeMatchResult demoRoleCriteria demoRoleCv demoRolePd).score = JSNum.fin 200 ∧
    ¬((200 : ℚ) ≤ 100) ∧
    calculateExperienceScore (some 0) (some 0) = JSNum.nan ∧
    calculateExperienceScore (some 5) (some (-1)) = JSNum.fin (-40) := by decide

/-- Claim C2 fails as stated: the token-overlap numerator counts the
first string's tokens with multiplicity while the denominator
deduplicates, so `textSimilarity("x x", "x") = 2 > 1`. -/
theorem claim2_counterexample :
    calculateSemanticSimilarity "x x" "x" = 2 ∧
    ¬(calculateSemanticSimilarity "x x" "x" ≤ 1) := by decide

/-- Claim C2 amended: the text-similarity primitive returns a
non-negative value bounded by the number of tokens of its first argument
(in particular it can exceed 1); it returns 0 when either input is empty,
1 on case-insensitive trimmed equality, and otherwise the number of
first-argument tokens occurring among the second's tokens (with
multiplicity) divided by the size of the deduplicated token union. -/
theorem claim2_text_similarity (a b : String) :
    0 ≤ calculateSemanticSimilarity a b ∧
    calculateSemanticSimilarity a b ≤ ((Max.max (tokensOf (normChars a)).length 1 : ℕ) : ℚ) ∧
    ((a = "" ∨ b = "") → calculateSemanticSimilarity a b = 0) ∧
    (a ≠ "" → b ≠ "" → normChars a = normChars b → calculateSemanticSimilarity a b = 1) ∧
    (a ≠ "" → b ≠ "" → normChars a ≠ normChars b →
      calculateSemanticSimilarity a b =
        (((tokensOf (normChars a)).filter
            (fun w => (tokensOf (normChars b)).contains w)).length : ℚ) /
          ((Max.max ((tokensOf (normChars a) ++ tokensOf (normChars b)).dedup.length) 1 : ℕ) : ℚ)) := by
  refine ⟨sim_nonneg a b, sim_le_tokens a b, ?_, ?_, ?_⟩
  · intro h
    rw [calculateSemanticSimilarity, if_pos h]
  · intro ha hb he
    simp [calculateSemanticSimilarity, ha, hb, he]
  · intro ha hb hne
    simp [calculateSemanticSimilarity, ha, hb, hne, qdivq_eq, qofNat_eq]

/-- Witness for the amended claim C2 at a concrete pair of strings. -/
theorem claim2_witness :
    calculateSemanticSimilarity "ab cd" "ab" = mkRat 1 2 ∧
    0 ≤ calculateSemanticSimilarity "ab cd" "ab" := by
  exact ⟨by decide, (claim2_text_similarity "ab cd" "ab").1⟩

/-- Claim C3: the guard for `requiredYears = 0` is present only through
JS infinity arithmetic.  With `actualYears > 0` the meets branch caps at
100 as the spec says, but at `actualYears = 0, requiredYears = 0` the
division `0/0` is NaN and the function returns NaN rather than a meets
score — the divide-by-zero failure the claim rules out. -/
theorem claim3_required_zero_eval :
    calculateExperienceScore (some 0) (some 0) = JSNum.nan ∧
    calculateExperienceScore (some 3) (some 0) = JSNum.fin 100 ∧
    calculateExperienceScore none (some 0) = JSNum.fin 50 ∧
    calculateExperienceScore (some 3) none = JSNum.fin 50 := by decide

/-- Claim C4: at `total_years_experience = 0` with
`minimum_years_experience = 0` the experience scorer yields NaN, the NaN
propagates through the weighted sum into the final score, and the run
persists NaN as the stored score — contradicting the guarantee that no
scorer ever produces NaN in a persisted score. -/
theorem claim4_nan_persisted :
    calculateExperienceScore (some 0) (some 0) = JSNum.nan ∧
    computeFinalScore demoCriteria demoPdZero = JSNum.nan ∧
    (computeMatchResult demoCriteria demoCvZero demoPdZero).score = JSNum.nan ∧
    (runPostDB demoDB 5 1).project_cvs.map (fun cv => cv.score) =
      [some JSNum.nan, some (JSNum.fin 100)] := by decide

/-- Claim C5 fails as stated: in a run where one scored CV hits the
experience `0/0` NaN, the result list carries a NaN score, and no pair of
adjacent scores satisfies the claimed `score[i] >= score[i+1]` under JS
comparison (every comparison with NaN is false); the rankings are still
1..N. -/
theorem claim5_counterexample :
    (runResultsList demoDB 5 1).map (fun r => r.score) = [JSNum.nan, JSNum.fin 100] ∧
    (runResultsList demoDB 5 1).map (fun r => r.ranking) = [1, 2] ∧
    JSNum.ge JSNum.nan (JSNum.fin 100) = false := by decide

/-! ## Experience-score characterisations -/

theorem JSNum.min_inf_left (x : JSNum) : JSNum.min .inf x = x := by
  cases x <;> rfl

theorem exp_fin_meets {a r : ℚ} (hr : 0 < r) (h : r ≤ a) :
    calculateExperienceScore (some a) (some r) =
      .fin (Min.min 100 (80 + Min.min ((a - r) / r * 20) 20)) := by
  rw [calculateExperienceScore]
  simp only [if_pos h]
  rw [show JSNum.fin (qsub a r) = JSNum.fin (a - r) by rw [qsub_eq],
    JSNum.div_fin _ hr.ne', JSNum.mul_fin, JSNum.min_fin, JSNum.add_fin, JSNum.min_fin]

theorem exp_fin_below {a r : ℚ} (hr : 0 < r) (h : ¬r ≤ a) :
    calculateExperienceScore (some a) (some r) = .fin (Max.max 0 (a / r * 80)) := by
  rw [calculateExperienceScore]
  simp only [if_neg h]
  rw [JSNum.div_fin _ hr.ne', JSNum.mul_fin, JSNum.max_fin]

theorem exp_fin_required_zero {a : ℚ} (ha : 0 < a) :
    calculateExperienceScore (some a) (some 0) = .fin 100 := by
  have h20 : (0 : ℚ) < 20 := by norm_num
  rw [calculateExperienceScore]
  simp only [if_pos ha.le]
  rw [show qsub a 0 = a by rw [qsub_eq, sub_zero]]
  rw [show JSNum.div (.fin a) (.fin 0) = .inf by simp [JSNum.div, ha]]
  rw [show JSNum.mul .inf (.fin 20) = .inf by simp [JSNum.mul, h20]]
  rw [JSNum.min_inf_left, JSNum.add_fin, JSNum.min_fin]
  norm_num

/-- Claim C9 fails as stated: with required years 0 the experience score
at actual 0 is NaN while at actual 1 it is 100 (the JS comparison with
NaN is false), and with the schema-admissible required years -1 the
score drops from 160 at actual -2 to 80 at actual -1. -/
theorem claim9_counterexample :
    calculateExperienceScore (some 0) (some 0) = JSNum.nan ∧
    calculateExperienceScore (some 1) (some 0) = JSNum.fin 100 ∧
    JSNum.le JSNum.nan (JSNum.fin 100) = false ∧
    calculateExperienceScore (some (-2)) (some (-1)) = JSNum.fin 160 ∧
    calculateExperienceScore (some (-1)) (some (-1)) = JSNum.fin 80 ∧
    ¬((160 : ℚ) ≤ 80) := by decide

/-- Claim C9 amended: for any fixed positive required-years value the
experience dimension score is monotone non-decreasing in the candidate's
actual years (under the JS `<=` on the computed scores, which are finite
here). -/
theorem claim9_monotone (r x y : ℚ) (hr : 0 < r) (hxy : x ≤ y) :
    JSNum.le (calculateExperienceScore (some x) (some r))
      (calculateExperienceScore (some y) (some r)) = true := by
  rcases le_or_lt r x with hx | hx
  · rw [exp_fin_meets hr hx, exp_fin_meets hr (hx.trans hxy), JSNum.le_fin,
      decide_eq_true_iff]
    have hd : (x - r) / r ≤ (y - r) / r := by gcongr
    have : Min.min ((x - r) / r * 20) 20 ≤ Min.min ((y - r) / r * 20) 20 := by
      apply min_le_min _ le_rfl
      linarith
    apply min_le_min le_rfl
    linarith
  · rcases le_or_lt r y with hy | hy
    · rw [exp_fin_below hr (not_le.mpr hx), exp_fin_meets hr hy, JSNum.le_fin,
        decide_eq_true_iff]
      have h1 : Max.max 0 (x / r * 80) ≤ 80 := by
        apply max_le (by norm_num)
        have hx1 : x / r ≤ 1 := (div_le_one hr).mpr hx.le
        linarith
      have h2 : (80 : ℚ) ≤ Min.min 100 (80 + Min.min ((y - r) / r * 20) 20) := by
        apply le_min (by norm_num)
        have hb0 : (0 : ℚ) ≤ (y - r) / r * 20 := by
          have : (0 : ℚ) ≤ (y - r) / r := div_nonneg (by linarith) hr.le
          linarith
        have : (0 : ℚ) ≤ Min.min ((y - r) / r * 20) 20 := le_min hb0 (by norm_num)
        linarith
      linarith
    · rw [exp_fin_below hr (not_le.mpr hx), exp_fin_below hr (not_le.mpr hy), JSNum.le_fin,
        decide_eq_true_iff]
      apply max_le_max le_rfl
      have : x / r ≤ y / r := by gcongr
      linarith

/-- Witness for the amended claim C9 at concrete years. -/
theorem claim9_witness :
    (0 : ℚ) < 3 ∧ (2 : ℚ) ≤ 4 ∧
    JSNum.le (calculateExperienceScore (some 2) (some 3))
      (calculateExperienceScore (some 4) (some 3)) = true :=
  ⟨by norm_num, by norm_num, claim9_monotone 3 2 4 (by norm_num) (by norm_num)⟩

/-! ## Boundedness of the dimension scores -/

theorem JSNum.val_fin (q : ℚ) : (JSNum.fin q).val = q := rfl

theorem JSNum.isFin_fin (q : ℚ) : (JSNum.fin q).isFin = true := rfl

theorem exp_bounds {a r : ℚ} (ha : 0 ≤ a) (hr : 0 ≤ r) (hnz : ¬(a = 0 ∧ r = 0)) :
    (calculateExperienceScore (some a) (some r)).isFin = true ∧
    0 ≤ (calculateExperienceScore (some a) (some r)).val ∧
    (calculateExperienceScore (some a) (some r)).val ≤ 100 := by
  rcases eq_or_lt_of_le hr with hr0 | hrpos
  · have ha0 : 0 < a := by
      rcases eq_or_lt_of_le ha with h0 | h0
      · exact absurd ⟨h0.symm, hr0.symm⟩ hnz
      · exact h0
    rw [← hr0, exp_fin_required_zero ha0]
    exact ⟨rfl, by norm_num [JSNum.val_fin], by norm_num [JSNum.val_fin]⟩
  · by_cases hmeet : r ≤ a
    · rw [exp_fin_meets hrpos hmeet]
      refine ⟨rfl, ?_, ?_⟩
      · rw [JSNum.val_fin]
        apply le_min (by norm_num)
        have hb : 0 ≤ (a - r) / r * 20 := by
          have := div_nonneg (by linarith : (0:ℚ) ≤ a - r) hrpos.le
          linarith
        have : (0:ℚ) ≤ Min.min ((a - r) / r * 20) 20 := le_min hb (by norm_num)
        linarith
      · rw [JSNum.val_fin]
        exact min_le_left _ _
    · rw [exp_fin_below hrpos hmeet]
      refine ⟨rfl, ?_, ?_⟩
      · rw [JSNum.val_fin]
        exact le_max_left _ _
      · rw [JSNum.val_fin]
        apply max_le (by norm_num)
        have : a / r ≤ 1 := (div_le_one hrpos).mpr (not_le.mp hmeet).le
        linarith

theorem stab_fin_zero_max {jc : ℚ} (hj : 0 < jc) :
    calculateJobStabilityScore (some jc) (some 0) = .fin 0 := by
  rw [calculateJobStabilityScore]
  simp only [if_neg (not_le.mpr hj)]
  rw [show qsub jc 0 = jc by rw [qsub_eq, sub_zero]]
  rw [show JSNum.div (.fin jc) (.fin 0) = .inf by simp [JSNum.div, hj]]
  rw [show JSNum.mul .inf (.fin 50) = .inf by norm_num [JSNum.mul]]
  rfl

theorem stab_fin_pos {jc mx : ℚ} (hmx : 0 < mx) (h : ¬jc ≤ mx) :
    calculateJobStabilityScore (some jc) (some mx) =
      .fin (Max.max 0 (100 - (jc - mx) / mx * 50)) := by
  rw [calculateJobStabilityScore]
  simp only [if_neg h]
  rw [show JSNum.fin (qsub jc mx) = JSNum.fin (jc - mx) by rw [qsub_eq],
    JSNum.div_fin _ hmx.ne', JSNum.mul_fin, JSNum.sub_fin, JSNum.max_fin]

theorem stab_bounds {jc mx : ℚ} (_hj : 0 ≤ jc) (hm : 0 ≤ mx) :
    (calculateJobStabilityScore (some jc) (some mx)).isFin = true ∧
    0 ≤ (calculateJobStabilityScore (some jc) (some mx)).val ∧
    (calculateJobStabilityScore (some jc) (some mx)).val ≤ 100 := by
  by_cases h : jc ≤ mx
  · rw [calculateJobStabilityScore]
    simp only [if_pos h]
    exact ⟨rfl, by norm_num [JSNum.val_fin], by norm_num [JSNum.val_fin]⟩
  · rcases eq_or_lt_of_le hm with hm0 | hmx
    · have hj0 : 0 < jc := lt_of_lt_of_le (lt_of_not_le (hm0 ▸ h)) (le_refl jc)
      rw [← hm0, stab_fin_zero_max hj0]
      exact ⟨rfl, le_refl _, by norm_num [JSNum.val_fin]⟩
    · rw [stab_fin_pos hmx h]
      refine ⟨rfl, ?_, ?_⟩
      · rw [JSNum.val_fin]
        exact le_max_left _ _
      · rw [JSNum.val_fin]
        apply max_le (by norm_num)
        have hd : 0 ≤ (jc - mx) / mx * 50 := by
          have := div_nonneg (by linarith [not_le.mp h] : (0:ℚ) ≤ jc - mx) hmx.le
          linarith
        linarith

/-! ## Non-negativity of the evidence-list scorers -/

theorem roleLoop_nonneg (t : String) (l : List String) :
    ∀ best ms, 0 ≤ best → 0 ≤ (roleLoop t l best ms).1 := by
  induction l with
  | nil => intro best ms hb; simpa [roleLoop] using hb
  | cons role rest ih =>
    intro best ms hb
    rw [roleLoop]
    split
    · exact ih _ _ (by rw [qmax_eq]; exact le_max_of_le_left hb)
    · exact ih _ _ hb

theorem calculateRoleScore_nonneg (t : Option String) (roles : List String) :
    0 ≤ (calculateRoleScore t roles).score := by
  rcases t with _ | s
  · simp [calculateRoleScore]
  · rw [calculateRoleScore]
    split
    · norm_num
    · have h := roleLoop_nonneg s roles 0 [] (le_refl 0)
      rcases hl : roleLoop s roles 0 [] with ⟨b, ms⟩
      rw [hl] at h
      simp [h]

theorem requiredScan_nonneg (rs : String) (l : List String) :
    ∀ best ex sm, 0 ≤ best → 0 ≤ (requiredScan rs l best ex sm).1 := by
  induction l with
  | nil => intro best ex sm hb; simpa [requiredScan] using hb
  | cons cv rest ih =>
    intro best ex sm hb
    rw [requiredScan]
    split
    · norm_num
    · split
      · refine ih _ _ _ ?_
        rw [qmax_eq]
        exact le_max_of_le_left hb
      · exact ih _ _ _ hb

theorem preferredScan_nonneg (ps : String) (l : List String) :
    ∀ best ex sm, 0 ≤ best → 0 ≤ (preferredScan ps l best ex sm).1 := by
  induction l with
  | nil => intro best ex sm hb; simpa [preferredScan] using hb
  | cons cv rest ih =>
    intro best ex sm hb
    rw [preferredScan]
    split
    · norm_num
    · split
      · refine ih _ _ _ ?_
        rw [qmax_eq]
        exact le_max_of_le_left hb
      · exact ih _ _ _ hb

theorem requiredLoop_nonneg (cvSkills : List String) (l : List String) :
    ∀ total maxP ex sm, 0 ≤ total → 0 ≤ (requiredLoop cvSkills l total maxP ex sm).1 := by
  induction l with
  | nil => intro total maxP ex sm ht; simpa [requiredLoop] using ht
  | cons rs rest ih =>
    intro total maxP ex sm ht
    rw [requiredLoop]
    rcases hs : requiredScan rs cvSkills 0 ex sm with ⟨best, ex2, sm2⟩
    have hbest : 0 ≤ best := by
      have := requiredScan_nonneg rs cvSkills 0 ex sm (le_refl 0)
      rwa [hs] at this
    exact ih _ _ _ _ (by rw [qadd_eq]; exact add_nonneg ht hbest)

theorem preferredLoop_nonneg (cvSkills : List String) (l : List String) :
    ∀ total maxP ex sm, 0 ≤ total → 0 ≤ (preferredLoop cvSkills l total maxP ex sm).1 := by
  induction l with
  | nil => intro total maxP ex sm ht; simpa [preferredLoop] using ht
  | cons ps rest ih =>
    intro total maxP ex sm ht
    rw [preferredLoop]
    rcases hs : preferredScan ps cvSkills 0 ex sm with ⟨best, ex2, sm2⟩
    have hbest : 0 ≤ best := by
      have := preferredScan_nonneg ps cvSkills 0 ex sm (le_refl 0)
      rwa [hs] at this
    exact ih _ _ _ _ (by rw [qadd_eq]; exact add_nonneg ht hbest)

theorem calculateSkillsScore_nonneg (rs ps cv : List String) :
    0 ≤ (calculateSkillsScore rs ps cv).score := by
  rw [calculateSkillsScore]
  split
  · norm_num
  · rcases h1 : requiredLoop cv rs 0 0 [] [] with ⟨t1, m1, ex1, sm1⟩
    dsimp only
    rcases h2 : preferredLoop cv ps t1 m1 ex1 sm1 with ⟨t2, m2, ex2, sm2⟩
    dsimp only
    have ht1 : 0 ≤ t1 := by
      have := requiredLoop_nonneg cv rs 0 0 [] [] (le_refl 0)
      rwa [h1] at this
    have ht2 : 0 ≤ t2 := by
      have := preferredLoop_nonneg cv ps t1 m1 ex1 sm1 ht1
      rwa [h2] at this
    by_cases hm : 0 < m2
    · simp only [if_pos hm]
      rw [qmul_eq, qdivq_eq]
      exact mul_nonneg (div_nonneg ht2 (le_of_lt hm)) (by norm_num)
    · simp only [if_neg hm]
      exact le_refl 0

theorem industryBest_nonneg (t : String) (l : List String) :
    ∀ best bi, 0 ≤ best → 0 ≤ (industryBest t l best bi).1 := by
  induction l with
  | nil => intro best bi hb; simpa [industryBest] using hb
  | cons ci rest ih =>
    intro best bi hb
    by_cases h : best < calculateSemanticSimilarity t ci
    · rw [show industryBest t (ci :: rest) best bi =
          industryBest t rest (calculateSemanticSimilarity t ci) ci by
        rw [industryBest]
        exact if_pos h]
      exact ih _ _ (le_of_lt (lt_of_le_of_lt hb h))
    · rw [show industryBest t (ci :: rest) best bi = industryBest t rest best bi by
        rw [industryBest]
        exact if_neg h]
      exact ih _ _ hb

theorem industryLoop_nonneg (cvIndustries : List String) (l : List String) :
    ∀ total ms, 0 ≤ total → 0 ≤ (industryLoop cvIndustries l total ms).1 := by
  induction l with
  | nil => intro total ms ht; simpa [industryLoop] using ht
  | cons t rest ih =>
    intro total ms ht
    rw [industryLoop]
    rcases hb : industryBest t cvIndustries 0 "" with ⟨best, bi⟩
    dsimp only
    by_cases h : mkRat 3 5 < best
    · rw [if_pos h]
      refine ih _ _ ?_
      rw [qadd_eq]
      have h35 : (0 : ℚ) ≤ mkRat 3 5 := by decide
      exact add_nonneg ht (h35.trans (le_of_lt h))
    · rw [if_neg h]
      exact ih _ _ ht

theorem calculateIndustryScore_nonneg (ts cv : List String) :
    0 ≤ (calculateIndustryScore ts cv).score := by
  rw [calculateIndustryScore]
  split
  · norm_num
  · rcases hl : industryLoop cv ts 0 [] with ⟨total, ms⟩
    have ht : 0 ≤ total := by
      have := industryLoop_nonneg cv ts 0 [] (le_refl 0)
      rwa [hl] at this
    dsimp only
    by_cases hlen : 0 < ts.length
    · rw [if_pos hlen, qmul_eq, qdivq_eq, qofNat_eq]
      positivity
    · rw [if_neg hlen]

/-! ## The weighted final score under well-formed numeric inputs -/

theorem JSNum.eq_fin_val {x : JSNum} (h : x.isFin = true) : x = .fin x.val := by
  cases x <;> simp_all [JSNum.isFin, JSNum.val]

theorem computeFinalScore_fin {criteria : ProjectCriteria} {pd : ParsedCVData} {e s : ℚ}
    (he : calculateExperienceScore pd.total_years_experience
      criteria.minimum_years_experience = .fin e)
    (hs : calculateJobStabilityScore pd.job_changes_frequency
      criteria.max_job_changes_per_year = .fin s) :
    computeFinalScore criteria pd = .fin
      ((e * criteria.weights.years_experience +
        (calculateRoleScore criteria.target_role (pd.roles_positions.getD [])).score *
          criteria.weights.role_match +
        (calculateSkillsScore criteria.required_skills criteria.preferred_skills
          (pd.skills.getD [])).score * criteria.weights.skills_match +
        (calculateIndustryScore criteria.target_industries
          (pd.dominant_industries.getD [])).score * criteria.weights.industry_match +
        s * criteria.weights.job_stability) / 100) := by
  rw [computeFinalScore]
  rw [he, hs, JSNum.mul_fin, JSNum.mul_fin, JSNum.mul_fin, JSNum.mul_fin, JSNum.mul_fin,
    JSNum.add_fin, JSNum.add_fin, JSNum.add_fin, JSNum.add_fin,
    JSNum.div_fin _ (by norm_num : (100:ℚ) ≠ 0)]

/-- Claim C1 amended: for well-formed inputs whose numeric fields are
non-negative and which avoid the experience 0-actual/0-required NaN case,
the experience and stability scores are finite values in [0,100], the
role, skills and industry scores are non-negative (they are not bounded
by 100 — see the counterexample), and the final weighted score is a
non-negative finite value before and after two-decimal rounding. -/
theorem claim1_bounds (criteria : ProjectCriteria) (pd : ParsedCVData)
    (h1 : pd.total_years_experience.all (fun q => decide (0 ≤ q)) = true)
    (h2 : criteria.minimum_years_experience.all (fun q => decide (0 ≤ q)) = true)
    (h3 : pd.job_changes_frequency.all (fun q => decide (0 ≤ q)) = true)
    (h4 : criteria.max_job_changes_per_year.all (fun q => decide (0 ≤ q)) = true)
    (h5 : ¬(pd.total_years_experience = some 0 ∧
            criteria.minimum_years_experience = some 0))
    (h6 : 0 ≤ criteria.weights.years_experience)
    (h7 : 0 ≤ criteria.weights.role_match)
    (h8 : 0 ≤ criteria.weights.skills_match)
    (h9 : 0 ≤ criteria.weights.industry_match)
    (h10 : 0 ≤ criteria.weights.job_stability) :
    (calculateExperienceScore pd.total_years_experience
        criteria.minimum_years_experience).isFin = true ∧
    0 ≤ (calculateExperienceScore pd.total_years_experience
        criteria.minimum_years_experience).val ∧
    (calculateExperienceScore pd.total_years_experience
        criteria.minimum_years_experience).val ≤ 100 ∧
    (calculateJobStabilityScore pd.job_changes_frequency
        criteria.max_job_changes_per_year).isFin = true ∧
    0 ≤ (calculateJobStabilityScore pd.job_changes_frequency
        criteria.max_job_changes_per_year).val ∧
    (calculateJobStabilityScore pd.job_changes_frequency
        criteria.max_job_changes_per_year).val ≤ 100 ∧
    0 ≤ (calculateRoleScore criteria.target_role (pd.roles_positions.getD [])).score ∧
    0 ≤ (calculateSkillsScore criteria.required_skills criteria.preferred_skills
        (pd.skills.getD [])).score ∧
    0 ≤ (calculateIndustryScore criteria.target_industries
        (pd.dominant_industries.getD [])).score ∧
    (computeFinalScore criteria pd).isFin = true ∧
    0 ≤ (computeFinalScore criteria pd).val ∧
    (JSNum.round2 (computeFinalScore criteria pd)).isFin = true ∧
    0 ≤ (JSNum.round2 (computeFinalScore criteria pd)).val := by
  have hexp : (calculateExperienceScore pd.total_years_experience
      criteria.minimum_years_experience).isFin = true ∧
      0 ≤ (calculateExperienceScore pd.total_years_experience
        criteria.minimum_years_experience).val ∧
      (calculateExperienceScore pd.total_years_experience
        criteria.minimum_years_experience).val ≤ 100 := by
    rcases hT : pd.total_years_experience with _ | a
    · rcases hR : criteria.minimum_years_experience with _ | r
      · exact ⟨rfl, by norm_num [calculateExperienceScore, JSNum.val], by
          norm_num [calculateExperienceScore, JSNum.val]⟩
      · exact ⟨rfl, by norm_num [calculateExperienceScore, JSNum.val], by
          norm_num [calculateExperienceScore, JSNum.val]⟩
    · rcases hR : criteria.minimum_years_experience with _ | r
      · exact ⟨rfl, by norm_num [calculateExperienceScore, JSNum.val], by
          norm_num [calculateExperienceScore, JSNum.val]⟩
      · have ha : 0 ≤ a := by
          rw [hT] at h1
          simpa [Option.all] using h1
        have hr : 0 ≤ r := by
          rw [hR] at h2
          simpa [Option.all] using h2
        have hnz : ¬(a = 0 ∧ r = 0) := by
          intro ⟨ha0, hr0⟩
          exact h5 ⟨by rw [hT, ha0], by rw [hR, hr0]⟩
        exact exp_bounds ha hr hnz
  have hstab : (calculateJobStabilityScore pd.job_changes_frequency
      criteria.max_job_changes_per_year).isFin = true ∧
      0 ≤ (calculateJobStabilityScore pd.job_changes_frequency
        criteria.max_job_changes_per_year).val ∧
      (calculateJobStabilityScore pd.job_changes_frequency
        criteria.max_job_changes_per_year).val ≤ 100 := by
    rcases hT : pd.job_changes_frequency with _ | jc
    · rcases hR : criteria.max_job_changes_per_year with _ | mx
      · exact ⟨rfl, by norm_num [calculateJobStabilityScore, JSNum.val], by
          norm_num [calculateJobStabilityScore, JSNum.val]⟩
      · exact ⟨rfl, by norm_num [calculateJobStabilityScore, JSNum.val], by
          norm_num [calculateJobStabilityScore, JSNum.val]⟩
    · rcases hR : criteria.max_job_changes_per_year with _ | mx
      · exact ⟨rfl, by norm_num [calculateJobStabilityScore, JSNum.val], by
          norm_num [calculateJobStabilityScore, JSNum.val]⟩
      · have hjc : 0 ≤ jc := by
          rw [hT] at h3
          simpa [Option.all] using h3
        have hmx : 0 ≤ mx := by
          rw [hR] at h4
          simpa [Option.all] using h4
        exact stab_bounds hjc hmx
  have hrole := calculateRoleScore_nonneg criteria.target_role (pd.roles_positions.getD [])
  have hskills := calculateSkillsScore_nonneg criteria.required_skills
    criteria.preferred_skills (pd.skills.getD [])
  have hind := calculateIndustryScore_nonneg criteria.target_industries
    (pd.dominant_industries.getD [])
  have hfs := computeFinalScore_fin (JSNum.eq_fin_val hexp.1) (JSNum.eq_fin_val hstab.1)
  have hfsv : 0 ≤ (computeFinalScore criteria pd).val := by
    rw [hfs, JSNum.val_fin]
    apply div_nonneg _ (by norm_num)
    have m1 := mul_nonneg hexp.2.1 h6
    have m2 := mul_nonneg hrole h7
    have m3 := mul_nonneg hskills h8
    have m4 := mul_nonneg hind h9
    have m5 := mul_nonneg hstab.2.1 h10
    linarith
  refine ⟨hexp.1, hexp.2.1, hexp.2.2, hstab.1, hstab.2.1, hstab.2.2, hrole, hskills, hind,
    ?_, hfsv, ?_, ?_⟩
  · rw [hfs]
    rfl
  · rw [hfs, JSNum.round2_fin]
    rfl
  · have hv : (computeFinalScore criteria pd) = .fin ((computeFinalScore criteria pd).val) := by
      rw [hfs]
      rfl
    rw [hv, JSNum.round2_fin, JSNum.val_fin]
    exact round2q_nonneg hfsv

/-- Criteria with non-negative numeric fields for the C1 witness. -/
def boundedCriteria : ProjectCriteria := ⟨some 3, none, [], [], [], some 1, ⟨25, 25, 30, 10, 10⟩⟩

/-- Parsed data with non-negative numeric fields for the C1 witness. -/
def boundedPd : ParsedCVData := ⟨some 5, some 0, none, none, none⟩

/-- Witness for the amended claim C1 at a concrete well-formed input. -/
theorem claim1_witness :
    ¬(boundedPd.total_years_experience = some 0 ∧
      boundedCriteria.minimum_years_experience = some 0) ∧
    (computeFinalScore boundedCriteria boundedPd).isFin = true ∧
    0 ≤ (computeFinalScore boundedCriteria boundedPd).val ∧
    0 ≤ (JSNum.round2 (computeFinalScore boundedCriteria boundedPd)).val := by
  have h := claim1_bounds boundedCriteria boundedPd (by decide) (by decide) (by decide)
    (by decide) (by decide) (by norm_num [boundedCriteria]) (by norm_num [boundedCriteria])
    (by norm_num [boundedCriteria]) (by norm_num [boundedCriteria]) (by norm_num [boundedCriteria])
  exact ⟨by decide, h.2.2.2.2.2.2.2.2.2.1, h.2.2.2.2.2.2.2.2.2.2.1,
    h.2.2.2.2.2.2.2.2.2.2.2.2⟩

/-! ## Characterisations of a run and of a project update -/

theorem run_err_results {db : DB} {now pid : ℕ}
    (hf : db.projects.find? (fun p => p.id == pid) = none) :
    runResultsList db now pid = [] := by
  rw [runResultsList, runMatchingAlgorithm, hf]

theorem run_err_postdb {db : DB} {now pid : ℕ}
    (hf : db.projects.find? (fun p => p.id == pid) = none) :
    runPostDB db now pid = db := by
  rw [runPostDB, runMatchingAlgorithm, hf]

theorem run_ok_results {db : DB} {now pid : ℕ} {project : SearchProject}
    (hf : db.projects.find? (fun p => p.id == pid) = some project) :
    runResultsList db now pid = assignRankings 1 (sortDesc
      ((db.project_cvs.filter (fun cv => cv.project_id == pid)).filterMap
        (fun cv => cv.parsed_data.map
          (fun pd => computeMatchResult project.criteria cv pd)))) := by
  rw [runResultsList, runMatchingAlgorithm, hf]

theorem run_ok_postdb {db : DB} {now pid : ℕ} {project : SearchProject}
    (hf : db.projects.find? (fun p => p.id == pid) = some project) :
    (runPostDB db now pid).project_cvs =
      writeBack now (runResultsList db now pid) db.project_cvs := by
  rw [runPostDB, runResultsList, runMatchingAlgorithm, hf]

/-- Claim C8: a run for a project id absent from the store fails with the
not-found error and is fatal: no results are produced and the store is
left exactly as it was. -/
theorem claim8_not_found (db : DB) (now project_id : ℕ)
    (h : db.projects.all (fun p => p.id != project_id) = true) :
    runMatchingAlgorithm db now project_id =
      .error ("Search project with ID " ++ toString project_id ++ " not found") ∧
    runResultsList db now project_id = [] ∧
    runPostDB db now project_id = db := by
  have hf : db.projects.find? (fun p => p.id == project_id) = none := by
    apply List.find?_eq_none.mpr
    intro p hp
    simpa using List.all_eq_true.mp h p hp
  exact ⟨by rw [runMatchingAlgorithm, hf], run_err_results hf, run_err_postdb hf⟩

/-- Witness for claim C8: the demo store has no project with id 2. -/
theorem claim8_witness :
    demoDB.projects.all (fun p => p.id != 2) = true ∧
    runMatchingAlgorithm demoDB 5 2 =
      .error ("Search project with ID " ++ toString 2 ++ " not found") ∧
    runResultsList demoDB 5 2 = [] :=
  ⟨by decide, (claim8_not_found demoDB 5 2 (by decide)).1,
    (claim8_not_found demoDB 5 2 (by decide)).2.1⟩

/-- The store after `updateSearchProject` (unchanged when the update
throws, which only happens before any write). -/
def updPostDB (db : DB) (now : ℕ) (input : UpdateSearchProjectInput) : DB :=
  match updateSearchProject db now input with
  | .ok (db2, _) => db2
  | .error _ => db

/-- Claim C7: a project update that includes `criteria` nulls out the
score and ranking of every ProjectCV of that project and bumps its
`updated_at` while keeping `parsed_data`; CVs of other projects, and all
CVs when the update carries no `criteria`, are untouched. -/
theorem claim7_criteria_reset (db : DB) (now : ℕ) (input : UpdateSearchProjectInput)
    (hfound : (db.projects.find? (fun p => p.id == input.id)).isSome = true) :
    (updPostDB db now input).project_cvs.length = db.project_cvs.length ∧
    ∀ (i : ℕ) (cv : ProjectCV), db.project_cvs[i]? = some cv →
      (input.criteria.isSome = true → cv.project_id = input.id →
        (updPostDB db now input).project_cvs[i]? =
          some { cv with score := none, ranking := none, updated_at := now }) ∧
      (input.criteria.isSome = true → cv.project_id ≠ input.id →
        (updPostDB db now input).project_cvs[i]? = some cv) ∧
      (input.criteria = none →
        (updPostDB db now input).project_cvs[i]? = some cv) := by
  obtain ⟨p0, hf⟩ := Option.isSome_iff_exists.mp hfound
  have hdb2 : (updPostDB db now input).project_cvs =
      (if input.criteria.isSome then db.project_cvs.map (resetCvScores now input.id)
       else db.project_cvs) := by
    rw [updPostDB, updateSearchProject, hf]
  constructor
  · rw [hdb2]
    split <;> simp
  · intro i cv hi
    refine ⟨?_, ?_, ?_⟩
    · intro hsome hpid
      rw [hdb2, if_pos hsome, List.getElem?_map, hi, Option.map_some']
      rw [resetCvScores, if_pos hpid]
    · intro hsome hpid
      rw [hdb2, if_pos hsome, List.getElem?_map, hi, Option.map_some']
      rw [resetCvScores, if_neg hpid]
    · intro hnone
      rw [hdb2, if_neg (by rw [hnone]; simp)]
      exact hi

/-- A CV row with a stored score and ranking, for the C7 witness. -/
def updDemoCv : ProjectCV := ⟨7, 1, some demoPdOne, some (JSNum.fin 85), some 1, 0⟩

/-- Store for the C7 witness. -/
def updDemoDB : DB := ⟨[demoProject], [updDemoCv]⟩

/-- An update of project 1 carrying new criteria. -/
def updDemoInput : UpdateSearchProjectInput := ⟨1, none, none, none, some boundedCriteria⟩

/-- Witness for claim C7 at a concrete store and update. -/
theorem claim7_witness :
    (updDemoDB.projects.find? (fun p => p.id == updDemoInput.id)).isSome = true ∧
    (updPostDB updDemoDB 9 updDemoInput).project_cvs[0]? =
      some { updDemoCv with score := none, ranking := none, updated_at := 9 } := by
  refine ⟨by decide, ?_⟩
  exact ((claim7_criteria_reset updDemoDB 9 updDemoInput (by decide)).2 0 updDemoCv
    (by decide)).1 (by decide) (by decide)

/-! ## Permutation and write-back lemmas for the orchestrator -/

theorem writeBack_cons (now : ℕ) (r : CVMatchResult) (rest : List CVMatchResult)
    (cvs : List ProjectCV) :
    writeBack now (r :: rest) cvs = writeBack now rest (applyResultWrite now cvs r) := rfl

theorem writeBack_preserve (now : ℕ) (results : List CVMatchResult) :
    ∀ (cvs : List ProjectCV) (i : ℕ) (cv : ProjectCV),
      (∀ r ∈ results, r.cv.id ≠ cv.id) → cvs[i]? = some cv →
      (writeBack now results cvs)[i]? = some cv := by
  induction results with
  | nil =>
    intro cvs i cv _ hi
    simpa [writeBack] using hi
  | cons r rest ih =>
    intro cvs i cv hne hi
    rw [writeBack_cons]
    apply ih
    · intro t ht
      exact hne t (List.mem_cons_of_mem _ ht)
    · rw [applyResultWrite, List.getElem?_map, hi, Option.map_some']
      rw [if_neg (fun h => hne r (List.mem_cons_self r rest) h.symm)]

theorem insertDesc_perm (a : CVMatchResult) (l : List CVMatchResult) :
    (insertDesc a l).Perm (a :: l) := by
  induction l with
  | nil => exact List.Perm.refl _
  | cons b t ih =>
    rw [insertDesc]
    split
    · exact List.Perm.refl _
    · exact (ih.cons b).trans (List.Perm.swap a b t)

theorem sortDesc_perm (l : List CVMatchResult) : (sortDesc l).Perm l := by
  induction l with
  | nil => exact List.Perm.refl _
  | cons a t ih =>
    rw [sortDesc]
    exact (insertDesc_perm a (sortDesc t)).trans (ih.cons a)

theorem assignRankings_map_cv (k : ℤ) (l : List CVMatchResult) :
    (assignRankings k l).map (fun r => r.cv) = l.map (fun r => r.cv) := by
  induction l generalizing k with
  | nil => rfl
  | cons r t ih =>
    rw [assignRankings, List.map_cons, List.map_cons, ih]

theorem assignRankings_map_score (k : ℤ) (l : List CVMatchResult) :
    (assignRankings k l).map (fun r => r.score) = l.map (fun r => r.score) := by
  induction l generalizing k with
  | nil => rfl
  | cons r t ih =>
    rw [assignRankings, List.map_cons, List.map_cons, ih]

theorem mem_assignRankings {r : CVMatchResult} :
    ∀ (k : ℤ) (l : List CVMatchResult), r ∈ assignRankings k l →
      ∃ r0 ∈ l, r.cv = r0.cv ∧ r.score = r0.score := by
  intro k l
  induction l generalizing k with
  | nil => intro h; simp [assignRankings] at h
  | cons s t ih =>
    intro h
    rw [assignRankings] at h
    rcases List.mem_cons.mp h with h1 | h2
    · exact ⟨s, List.mem_cons_self s t, by rw [h1], by rw [h1]⟩
    · obtain ⟨r0, hr0, hcv, hs⟩ := ih _ h2
      exact ⟨r0, List.mem_cons_of_mem _ hr0, hcv, hs⟩

/-- Every element of a run's result list originates from a stored CV of
that project with parsed data; its embedded `cv` is the spread of that
row and its score is the freshly computed rounded final score. -/
theorem mem_results_origin {db : DB} {now pid : ℕ} {project : SearchProject}
    (hf : db.projects.find? (fun p => p.id == pid) = some project)
    {r : CVMatchResult} (hr : r ∈ runResultsList db now pid) :
    ∃ cv ∈ db.project_cvs, cv.project_id = pid ∧
      ∃ pd, cv.parsed_data = some pd ∧ r.cv = toResponseCV cv ∧
        r.score = JSNum.round2 (computeFinalScore project.criteria pd) := by
  rw [run_ok_results hf] at hr
  obtain ⟨r0, hr0, hcv, hs⟩ := mem_assignRankings _ _ hr
  have hr0' := (sortDesc_perm _).mem_iff.mp hr0
  obtain ⟨cv, hcvmem, hmk⟩ := List.mem_filterMap.mp hr0'
  obtain ⟨pd, hpd, hr0eq⟩ := Option.map_eq_some'.mp hmk
  obtain ⟨hcvdb, hcvpid⟩ := List.mem_filter.mp hcvmem
  refine ⟨cv, hcvdb, by simpa using hcvpid, pd, hpd, ?_, ?_⟩
  · rw [hcv, ← hr0eq]
    rfl
  · rw [hs, ← hr0eq]
    rfl

/-- Claim C6: a ProjectCV whose `parsed_data` is null is never part of a
run's results, and its stored row — score and ranking included — is left
exactly as it was by the run's write-back. -/
theorem claim6_unparsed_excluded (db : DB) (now pid : ℕ)
    (hids : (db.project_cvs.map ProjectCV.id).Nodup)
    (i : ℕ) (cv : ProjectCV) (hcv : db.project_cvs[i]? = some cv)
    (hnp : cv.parsed_data = none) :
    (∀ r ∈ runResultsList db now pid, r.cv.id ≠ cv.id) ∧
    (runPostDB db now pid).project_cvs[i]? = some cv := by
  have hmem : cv ∈ db.project_cvs := List.getElem?_mem hcv
  rcases hfo : db.projects.find? (fun p => p.id == pid) with _ | project
  · refine ⟨?_, ?_⟩
    · intro r hr
      rw [run_err_results hfo] at hr
      cases hr
    · rw [run_err_postdb hfo]
      exact hcv
  · have hne : ∀ r ∈ runResultsList db now pid, r.cv.id ≠ cv.id := by
      intro r hr heq
      obtain ⟨cv0, hcv0db, _, pd, hpd, hrcv, _⟩ := mem_results_origin hfo hr
      have hid0 : r.cv.id = cv0.id := by rw [hrcv]; rfl
      rw [hid0] at heq
      have hsame : cv0 = cv := List.inj_on_of_nodup_map hids hcv0db hmem heq
      rw [hsame, hnp] at hpd
      cases hpd
    refine ⟨hne, ?_⟩
    rw [run_ok_postdb hfo]
    exact writeBack_preserve now _ db.project_cvs i cv hne hcv

/-- A ProjectCV row that was never parsed. -/
def unparsedCv : ProjectCV := ⟨9, 1, none, none, none, 0⟩

/-- Store mixing one parsed and one unparsed CV of project 1. -/
def mixedDB : DB := ⟨[demoProject], [demoCvOne, unparsedCv]⟩

/-- Witness for claim C6 at a concrete store. -/
theorem claim6_witness :
    (mixedDB.project_cvs.map ProjectCV.id).Nodup ∧
    mixedDB.project_cvs[1]? = some unparsedCv ∧
    unparsedCv.parsed_data = none ∧
    (runPostDB mixedDB 5 1).project_cvs[1]? = some unparsedCv := by
  refine ⟨by decide, by decide, by decide, ?_⟩
  exact (claim6_unparsed_excluded mixedDB 5 1 (by decide) 1 unparsedCv (by decide)
    (by decide)).2

/-! ## Identity of the written-back rows -/

theorem rawResults_map_id (criteria : ProjectCriteria) (l : List ProjectCV) :
    (l.filterMap (fun cv => cv.parsed_data.map
        (fun pd => computeMatchResult criteria cv pd))).map (fun r => r.cv.id) =
      (l.filter (fun cv => cv.parsed_data.isSome)).map ProjectCV.id := by
  induction l with
  | nil => rfl
  | cons cv t ih =>
    rcases h : cv.parsed_data with _ | pd
    · simp only [List.filterMap_cons, h, List.filter_cons, Option.isSome_none,
        Bool.false_eq_true, if_false]
      exact ih
    · simp only [List.filterMap_cons, h, Option.map_some', List.filter_cons,
        Option.isSome_some, if_true, List.map_cons]
      rw [ih]
      rfl

theorem assignRankings_map_cvid (k : ℤ) (l : List CVMatchResult) :
    (assignRankings k l).map (fun r => r.cv.id) = l.map (fun r => r.cv.id) := by
  induction l generalizing k with
  | nil => rfl
  | cons r t ih =>
    rw [assignRankings, List.map_cons, List.map_cons, ih]

theorem results_ids_nodup {db : DB} {now pid : ℕ} {project : SearchProject}
    (hf : db.projects.find? (fun p => p.id == pid) = some project)
    (hids : (db.project_cvs.map ProjectCV.id).Nodup) :
    ((runResultsList db now pid).map (fun r => r.cv.id)).Nodup := by
  rw [run_ok_results hf, assignRankings_map_cvid]
  have hperm := (sortDesc_perm ((db.project_cvs.filter
      (fun cv => cv.project_id == pid)).filterMap
    (fun cv => cv.parsed_data.map
      (fun pd => computeMatchResult project.criteria cv pd)))).map (fun r => r.cv.id)
  rw [(hperm.nodup_iff : _)]
  rw [rawResults_map_id]
  have hsub : (((db.project_cvs.filter (fun cv => cv.project_id == pid)).filter
      (fun cv => cv.parsed_data.isSome)).map ProjectCV.id).Sublist
      (db.project_cvs.map ProjectCV.id) :=
    List.Sublist.map ProjectCV.id
      ((List.filter_sublist _).trans (List.filter_sublist _))
  exact hids.sublist hsub

theorem writeBack_update (now : ℕ) (results : List CVMatchResult) :
    ∀ (cvs : List ProjectCV) (r : CVMatchResult) (j : ℕ) (cv : ProjectCV),
      (results.map (fun s => s.cv.id)).Nodup →
      r ∈ results → cvs[j]? = some cv → cv.id = r.cv.id →
      (writeBack now results cvs)[j]? =
        some { cv with
                score := some r.score
                ranking := some r.ranking
                updated_at := now } := by
  induction results with
  | nil =>
    intro _ _ _ _ _ hmem
    cases hmem
  | cons s rest ih =>
    intro cvs r j cv hnd hmem hj hid
    rw [writeBack_cons]
    have hndtail := (List.nodup_cons.mp hnd).2
    have hshead : s.cv.id ∉ rest.map (fun t => t.cv.id) := by
      simpa using (List.nodup_cons.mp hnd).1
    rcases List.mem_cons.mp hmem with rfl | hmem'
    · apply writeBack_preserve
      · intro t ht heq
        apply hshead
        have h2 : t.cv.id = r.cv.id := by
          rw [heq]
          show cv.id = r.cv.id
          exact hid
        rw [← h2]
        exact List.mem_map_of_mem (fun t => t.cv.id) ht
      · rw [applyResultWrite, List.getElem?_map, hj, Option.map_some', if_pos hid]
    · apply ih _ r j cv hndtail hmem'
      · rw [applyResultWrite, List.getElem?_map, hj, Option.map_some']
        rw [if_neg]
        intro heq
        apply hshead
        rw [← heq, hid]
        exact List.mem_map_of_mem (fun t => t.cv.id) hmem'
      · exact hid

/-- Claim C10: in every returned result the embedded cv record's score
field is the previously stored score converted to a number with null
coerced to 0 — not the newly computed match score; the new score appears
in the result's top-level score field (the rounded weighted score of the
CV's parsed data) and is what the write-back stores onto the row,
together with the new ranking. -/
theorem claim10_cv_score_is_old (db : DB) (now pid : ℕ) (project : SearchProject)
    (hf : db.projects.find? (fun p => p.id == pid) = some project)
    (hids : (db.project_cvs.map ProjectCV.id).Nodup)
    (r : CVMatchResult) (hr : r ∈ runResultsList db now pid) :
    ∃ cv ∈ db.project_cvs,
      r.cv.id = cv.id ∧
      r.cv.score = cv.score.getD (JSNum.fin 0) ∧
      r.cv.ranking = cv.ranking ∧
      (∃ pd, cv.parsed_data = some pd ∧
        r.score = JSNum.round2 (computeFinalScore project.criteria pd)) ∧
      ∀ j : ℕ, db.project_cvs[j]? = some cv →
        (runPostDB db now pid).project_cvs[j]? =
          some { cv with
                  score := some r.score
                  ranking := some r.ranking
                  updated_at := now } := by
  obtain ⟨cv, hcvdb, hpidcv, pd, hpd, hrcv, hrs⟩ := mem_results_origin hf hr
  refine ⟨cv, hcvdb, by rw [hrcv]; rfl, by rw [hrcv]; rfl, by rw [hrcv]; rfl,
    ⟨pd, hpd, hrs⟩, ?_⟩
  intro j hj
  rw [run_ok_postdb hf]
  exact writeBack_update now _ db.project_cvs r j cv (results_ids_nodup hf hids) hr hj
    (by rw [hrcv]; rfl)

/-- The single result of a run over `mixedDB`: the embedded cv record
carries the old (null → 0) score while the computed score 100 is the
top-level score. -/
def c10res : CVMatchResult :=
  ⟨⟨2, 1, some demoPdOne, JSNum.fin 0, none, 0⟩, JSNum.fin 100, 1,
    ⟨⟨some 1, some 0, JSNum.fin 100⟩, ⟨[], 0⟩, ⟨[], [], 0⟩, ⟨[], 0⟩, ⟨none, JSNum.fin 50⟩⟩⟩

/-- Witness for claim C10 at a concrete store. -/
theorem claim10_witness :
    runResultsList mixedDB 5 1 = [c10res] ∧
    c10res.cv.score = demoCvOne.score.getD (JSNum.fin 0) ∧
    c10res.score = JSNum.round2 (computeFinalScore demoCriteria demoPdOne) ∧
    (runPostDB mixedDB 5 1).project_cvs[0]? =
      some { demoCvOne with
              score := some c10res.score
              ranking := some c10res.ranking
              updated_at := 5 } := by
  refine ⟨by decide, by decide, by decide, ?_⟩
  obtain ⟨cv, hcvmem, hid, hscore, hrank, hpdex, hwb⟩ :=
    claim10_cv_score_is_old mixedDB 5 1 demoProject (by decide) (by decide) c10res
      (by rw [show runResultsList mixedDB 5 1 = [c10res] from by decide]
          exact List.mem_cons_self c10res [])
  have hcveq : cv = demoCvOne := by
    rcases List.mem_cons.mp hcvmem with h | h
    · exact h.symm ▸ rfl
    · have h9 : cv = unparsedCv := by simpa using h
      rw [h9] at hid
      exact absurd hid (by decide)
  rw [hcveq] at hwb
  exact hwb 0 (by decide)

/-! ## Sortedness of a run's results -/

/-- The comparator-keep relation on bare scores. -/
def jsKeep (x y : JSNum) : Bool :=
  match JSNum.sub y x with
  | .nan => true
  | .inf => false
  | .ninf => true
  | .fin q => decide (q ≤ 0)

theorem cmpKeep_eq (a b : CVMatchResult) : cmpKeep a b = jsKeep a.score b.score := rfl

theorem jsKeep_fin_total {qa qb : ℚ}
    (h : ¬jsKeep (JSNum.fin qa) (JSNum.fin qb) = true) :
    jsKeep (JSNum.fin qb) (JSNum.fin qa) = true := by
  simp only [jsKeep, JSNum.sub_fin, decide_eq_true_eq] at h ⊢
  linarith [not_le.mp h]

theorem cmpKeep_total {a b : CVMatchResult} (ha : a.score.isFin = true)
    (hb : b.score.isFin = true) (h : ¬cmpKeep a b = true) : cmpKeep b a = true := by
  rw [cmpKeep_eq] at h ⊢
  rw [JSNum.eq_fin_val ha, JSNum.eq_fin_val hb] at h ⊢
  exact jsKeep_fin_total h

theorem insertDesc_head?_cases (a : CVMatchResult) (l : List CVMatchResult) :
    (insertDesc a l).head? = some a ∨ (insertDesc a l).head? = l.head? := by
  cases l with
  | nil => left; rfl
  | cons b t =>
    rw [insertDesc]
    split
    · left; rfl
    · right; rfl

theorem mem_insertDesc {x a : CVMatchResult} {l : List CVMatchResult}
    (h : x ∈ insertDesc a l) : x = a ∨ x ∈ l :=
  List.mem_cons.mp ((insertDesc_perm a l).mem_iff.mp h)

theorem chain'_insertDesc {a : CVMatchResult} {l : List CVMatchResult}
    (hfa : a.score.isFin = true) (hfl : ∀ x ∈ l, x.score.isFin = true)
    (hc : List.Chain' (fun x y => cmpKeep x y = true) l) :
    List.Chain' (fun x y => cmpKeep x y = true) (insertDesc a l) := by
  induction l with
  | nil => simp [insertDesc]
  | cons b t ih =>
    rw [insertDesc]
    by_cases h : cmpKeep a b = true
    · rw [if_pos h]
      exact hc.cons h
    · rw [if_neg h]
      have hb : b.score.isFin = true := hfl b (List.mem_cons_self b t)
      have hba : cmpKeep b a = true := cmpKeep_total hfa hb h
      have hrec := ih (fun x hx => hfl x (List.mem_cons_of_mem _ hx)) hc.tail
      apply List.chain'_cons'.mpr
      refine ⟨?_, hrec⟩
      intro y hy
      rcases insertDesc_head?_cases a t with hh | hh
      · rw [hh] at hy
        have hay : a = y := by simpa using hy
        rw [← hay]
        exact hba
      · rw [hh] at hy
        cases t with
        | nil => simp at hy
        | cons c t' =>
          have hcy : c = y := by simpa using hy
          rw [← hcy]
          exact (List.chain'_cons.mp hc).1

theorem chain'_sortDesc {l : List CVMatchResult}
    (hfl : ∀ x ∈ l, x.score.isFin = true) :
    List.Chain' (fun x y => cmpKeep x y = true) (sortDesc l) := by
  induction l with
  | nil => simp [sortDesc]
  | cons a t ih =>
    rw [sortDesc]
    apply chain'_insertDesc (hfl a (List.mem_cons_self a t))
    · intro x hx
      exact hfl x (List.mem_cons_of_mem _ ((sortDesc_perm t).mem_iff.mp hx))
    · exact ih (fun x hx => hfl x (List.mem_cons_of_mem _ hx))

theorem chain'_transfer {l l' : List CVMatchResult}
    (hmap : l'.map (fun r => r.score) = l.map (fun r => r.score))
    (hc : List.Chain' (fun x y => cmpKeep x y = true) l) :
    List.Chain' (fun x y => cmpKeep x y = true) l' := by
  have h1 : List.Chain' (fun x y => jsKeep x y = true) (l.map (fun r => r.score)) := by
    rw [List.chain'_map]
    simpa [cmpKeep_eq] using hc
  rw [← hmap, List.chain'_map] at h1
  simpa [cmpKeep_eq] using h1

theorem assignRankings_ranking :
    ∀ (l : List CVMatchResult) (k : ℤ) (i : ℕ) (r : CVMatchResult),
      (assignRankings k l)[i]? = some r → r.ranking = k + (i : ℤ) := by
  intro l
  induction l with
  | nil =>
    intro k i r h
    simp [assignRankings] at h
  | cons x t ih =>
    intro k i r h
    rw [assignRankings] at h
    cases i with
    | zero =>
      have hx : ({ x with ranking := k } : CVMatchResult) = r := by simpa using h
      rw [← hx]
      simp
    | succ i =>
      have := ih (k + 1) i r (by simpa using h)
      rw [this]
      push_cast
      ring

theorem assignRankings_length (k : ℤ) (l : List CVMatchResult) :
    (assignRankings k l).length = l.length := by
  induction l generalizing k with
  | nil => rfl
  | cons x t ih =>
    rw [assignRankings]
    simp [ih]

theorem sortDesc_length (l : List CVMatchResult) : (sortDesc l).length = l.length :=
  (sortDesc_perm l).length_eq

theorem ge_of_cmpKeep {a b : CVMatchResult} (ha : a.score.isFin = true)
    (hb : b.score.isFin = true) (h : cmpKeep a b = true) :
    JSNum.ge a.score b.score = true := by
  rw [cmpKeep_eq, JSNum.eq_fin_val ha, JSNum.eq_fin_val hb] at h
  rw [JSNum.ge, JSNum.eq_fin_val ha, JSNum.eq_fin_val hb, JSNum.le_fin]
  simp only [jsKeep, JSNum.sub_fin, decide_eq_true_eq] at h
  have : b.score.val ≤ a.score.val := by linarith
  simpa using this

/-- Claim C5 amended: in every run on an existing project, the rankings
of the result list are exactly 1..N in list order, N being the number of
that project's CVs with non-null parsed data; and provided every
computed score is a number (no CV hits the experience 0/0 NaN), the
scores are non-increasing along the ranking order under the JS `>=`
comparison. -/
theorem claim5_ranking (db : DB) (now pid : ℕ)
    (hfound : (db.projects.find? (fun p => p.id == pid)).isSome = true) :
    (∀ (i : ℕ) (r : CVMatchResult), (runResultsList db now pid)[i]? = some r →
      r.ranking = (i : ℤ) + 1) ∧
    (runResultsList db now pid).length =
      (db.project_cvs.filter
        (fun cv => cv.parsed_data.isSome && cv.project_id == pid)).length ∧
    ((runResultsList db now pid).all (fun r => r.score.isFin) = true →
      ∀ (i : ℕ) (a b : CVMatchResult), (runResultsList db now pid)[i]? = some a →
      (runResultsList db now pid)[i + 1]? = some b →
      JSNum.ge a.score b.score = true) := by
  obtain ⟨project, hf⟩ := Option.isSome_iff_exists.mp hfound
  refine ⟨?_, ?_, ?_⟩
  · intro i r h
    rw [run_ok_results hf] at h
    rw [assignRankings_ranking _ 1 i r h]
    ring
  · rw [run_ok_results hf, assignRankings_length, sortDesc_length]
    have hlen := congrArg List.length (rawResults_map_id project.criteria
      (db.project_cvs.filter (fun cv => cv.project_id == pid)))
    rw [List.length_map, List.length_map] at hlen
    rw [hlen, List.filter_filter]
  · intro hfin
    have hfin' : ∀ x ∈ runResultsList db now pid, x.score.isFin = true :=
      fun x hx => List.all_eq_true.mp hfin x hx
    have hscores : (runResultsList db now pid).map (fun r => r.score) =
        (sortDesc ((db.project_cvs.filter (fun cv => cv.project_id == pid)).filterMap
          (fun cv => cv.parsed_data.map
            (fun pd => computeMatchResult project.criteria cv pd)))).map
          (fun r => r.score) := by
      rw [run_ok_results hf, assignRankings_map_score]
    have hfinsort : ∀ x ∈ sortDesc ((db.project_cvs.filter
        (fun cv => cv.project_id == pid)).filterMap
          (fun cv => cv.parsed_data.map
            (fun pd => computeMatchResult project.criteria cv pd))),
        x.score.isFin = true := by
      intro x hx
      have hmem : x.score ∈ (sortDesc ((db.project_cvs.filter
          (fun cv => cv.project_id == pid)).filterMap
            (fun cv => cv.parsed_data.map
              (fun pd => computeMatchResult project.criteria cv pd)))).map
            (fun r => r.score) := List.mem_map_of_mem _ hx
      rw [← hscores] at hmem
      obtain ⟨y, hy, hyx⟩ := List.mem_map.mp hmem
      rw [← hyx]
      exact hfin' y hy
    have hfinraw : ∀ x ∈ (db.project_cvs.filter
        (fun cv => cv.project_id == pid)).filterMap
          (fun cv => cv.parsed_data.map
            (fun pd => computeMatchResult project.criteria cv pd)),
        x.score.isFin = true :=
      fun x hx => hfinsort x ((sortDesc_perm _).mem_iff.mpr hx)
    have hchain := chain'_transfer hscores (chain'_sortDesc hfinraw)
    intro i a b hia hib
    obtain ⟨hltb, hgb⟩ := List.getElem?_eq_some_iff.mp hib
    obtain ⟨hlta, hga⟩ := List.getElem?_eq_some_iff.mp hia
    have hi : i < (runResultsList db now pid).length - 1 := by omega
    have hr := List.chain'_iff_get.mp hchain i hi
    rw [List.get_eq_getElem, List.get_eq_getElem] at hr
    have hga' : (runResultsList db now pid)[i] = a := hga
    have hgb' : (runResultsList db now pid)[i + 1] = b := hgb
    rw [hga', hgb'] at hr
    exact ge_of_cmpKeep (hfin' a (List.getElem?_mem hia)) (hfin' b (List.getElem?_mem hib)) hr

/-- Criteria requiring 3 years of experience, all weight on experience. -/
def finCriteria : ProjectCriteria := ⟨some 3, none, [], [], [], none, demoWeights⟩

/-- Project holding `finCriteria`. -/
def finProject : SearchProject := ⟨1, "p", none, .ACTIVE, finCriteria, 0⟩

/-- Store with two parsed CVs whose scores are both finite. -/
def finDB : DB :=
  ⟨[finProject],
   [⟨1, 1, some ⟨some 5, none, none, none, none⟩, none, none, 0⟩,
    ⟨2, 1, some ⟨some 1, none, none, none, none⟩, none, none, 0⟩]⟩

/-- Witness for the amended claim C5 at a concrete store with finite
scores. -/
theorem claim5_witness :
    (finDB.projects.find? (fun p => p.id == 1)).isSome = true ∧
    (runResultsList finDB 5 1).all (fun r => r.score.isFin) = true ∧
    (runResultsList finDB 5 1).length =
      (finDB.project_cvs.filter
        (fun cv => cv.parsed_data.isSome && cv.project_id == 1)).length := by
  refine ⟨by decide, by decide, ?_⟩
  exact (claim5_ranking finDB 5 1 (by decide)).2.1
